import Mathlib

/-!
Verification of the document-analysis pipeline: a shallow embedding of the
YOLOv8 ONNX decode pipeline (`src/detectors/yolo-v8-onnx.detector.ts`) and of
the rule-based refinement engine (`refineDocumentAnalysis` and its helpers).

JavaScript numbers are modelled as exact rationals (`ℚ`).  The one place the
source divides without guarding against a zero divisor (the coverage fraction
inside `scoreScreenshot`) is modelled with an explicit IEEE-style value type
`JNum` (finite / NaN / ±Infinity), so that division by zero is not silently
collapsed to Lean's `q / 0 = 0` convention.  All other arithmetic in the
source is guarded or has nonzero divisors on every path that uses the result.
-/

attribute [local semireducible] Rat.add Rat.sub Rat.mul Rat.inv Rat.ofScientific

namespace RestartVision

/-- Axis-aligned box `{x1, y1, x2, y2}` (the `Box` alias of the refiner and the
`box` field of `DetectionAxisAligned`). -/
structure Box where
  x1 : ℚ
  y1 : ℚ
  x2 : ℚ
  y2 : ℚ
deriving DecidableEq, Repr

/-- Modelled from the spec: the closed document-type enumeration
`{Receipt, Document, Screenshot, Unknown}` (`DocumentType` is imported from
`../types/document-type.enum`, a file not present in the sources; the spec
fixes its carrier, and describes the implementation as string-keyed, so every
member is a truthy value in boolean contexts such as `altType && …`). -/
inductive DocumentType where
  | RECEIPT
  | DOCUMENT
  | SCREENSHOT
  | UNKNOWN
deriving DecidableEq, Repr

/-- `DetectionMeta` (from `detection.types`), extended with the extra keys the
refiner stores through the `Record<string, any>` view (`validated`, the
diagnostic `metrics` object).  Absent keys are `none`. -/
structure DetectionMeta where
  synthetic : Option Bool := none
  adjusted : Option Bool := none
  source : Option String := none
  reason : Option String := none
  validated : Option Bool := none
  metricsWidthFrac : Option ℚ := none
  metricsHeightFrac : Option ℚ := none
  metricsWhich : Option String := none
deriving DecidableEq, Repr

/-- `DetectionAxisAligned`: `label`, `score`, `box`, optional `meta`. -/
structure Detection where
  label : String
  score : ℚ
  box : Box
  meta : Option DetectionMeta := none
deriving DecidableEq, Repr

/-- The `quality` sub-object of the summary (only the field the refiner
touches; the remaining fields are never read or written by it). -/
structure Quality where
  isPartialFlag : Option Bool := none
deriving DecidableEq, Repr

/-- `DocumentAnalysisSummary` restricted to the fields the refiner reads or
writes (`documentType`, `confidence`, `primaryBox`, `quality`).  `quality` may
be absent at runtime (the source reads it as `summary.quality?.…` and writes
`summary.quality = summary.quality || {}`). -/
structure Summary where
  documentType : DocumentType
  confidence : Option ℚ := none
  primaryBox : Option Box := none
  quality : Option Quality := none
deriving DecidableEq, Repr

/-- The `meta` block of `DocumentAnalysisResult`: image width, height and
aspect ratio. -/
structure ResultMeta where
  width : ℚ
  height : ℚ
  aspectRatio : ℚ
deriving DecidableEq, Repr

/-- `DocumentAnalysisResult` restricted to the fields the refiner reads or
writes: image metadata, summary, detection list, and the
`signals.diagnostics` note list. -/
structure AnalysisResult where
  meta : ResultMeta
  summary : Summary
  detections : List Detection
  diagnostics : List String := []
deriving DecidableEq, Repr

/-! ## JavaScript numeric values for the unguarded divisions -/

/-- An IEEE-style number as produced by JavaScript division: finite, NaN or a
signed infinity. -/
inductive JNum where
  | fin (q : ℚ)
  | nan
  | posInf
  | negInf
deriving DecidableEq, Repr

/-- JavaScript division `a / b`: finite when `b ≠ 0`; `0/0 = NaN`;
`a/0 = ±Infinity` for `a ≠ 0`. -/
def jdiv (a b : ℚ) : JNum :=
  if b = 0 then
    if a = 0 then JNum.nan else if 0 < a then JNum.posInf else JNum.negInf
  else JNum.fin (a / b)

/-- JavaScript `<` against a finite right operand (`NaN < c` and
`Infinity < c` are false; `-Infinity < c` is true). -/
def JNum.ltQ : JNum → ℚ → Bool
  | JNum.fin q, c => decide (q < c)
  | JNum.nan, _ => false
  | JNum.posInf, _ => false
  | JNum.negInf, _ => true

/-- JavaScript `>=` against a finite right operand (`NaN >= c` is false;
`Infinity >= c` is true; `-Infinity >= c` is false). -/
def JNum.geQ : JNum → ℚ → Bool
  | JNum.fin q, c => decide (c ≤ q)
  | JNum.nan, _ => false
  | JNum.posInf, _ => true
  | JNum.negInf, _ => false

/-! ## Geometry utilities of the refiner (`clamp`, `area`, `intersect`,
`iou`) -/

/-- `clamp(v, lo, hi) = Math.max(lo, Math.min(hi, v))`. -/
def clamp (v lo hi : ℚ) : ℚ := max lo (min hi v)

/-- `area(box) = max(0, x2-x1) * max(0, y2-y1)`. -/
def area (b : Box) : ℚ := max 0 (b.x2 - b.x1) * max 0 (b.y2 - b.y1)

/-- `intersect(a, b)`: corner-wise max/min. -/
def intersectBox (a b : Box) : Box :=
  ⟨max a.x1 b.x1, max a.y1 b.y1, min a.x2 b.x2, min a.y2 b.y2⟩

/-- `iou(a, b)`: intersection over union, `0` when the union area is not
positive. -/
def iou (a b : Box) : ℚ :=
  let interA := area (intersectBox a b)
  let unionA := area a + area b - interA
  if 0 < unionA then interA / unionA else 0

/-! ## Tolerance configuration -/

/-- The `Tol` record of numeric knobs. -/
structure Tol where
  minBarWidthFrac : ℚ
  topBottomBandFrac : ℚ
  maxBarHeightFrac : ℚ
  insideSlackPx : ℚ
  classMargin : ℚ
  minPrimaryAreaFrac : ℚ
  screenshotMinCoverFrac : ℚ
  screenshotBarBonus : ℚ
  screenshotBothBarsBonus : ℚ
  screenshotCoverBonus : ℚ
  altCandidateMaxDelta : ℚ
deriving DecidableEq, Repr

/-- `DEFAULT_TOL`. -/
def DEFAULT_TOL : Tol where
  minBarWidthFrac := 4/5
  topBottomBandFrac := 3/25
  maxBarHeightFrac := 3/20
  insideSlackPx := 8
  classMargin := 7/100
  minPrimaryAreaFrac := 1/5
  screenshotMinCoverFrac := 4/5
  screenshotBarBonus := 1/20
  screenshotBothBarsBonus := 3/100
  screenshotCoverBonus := 1/20
  altCandidateMaxDelta := 3/50

/-- `Partial<Tol>`: every knob individually optional. -/
structure PartialTol where
  minBarWidthFrac : Option ℚ := none
  topBottomBandFrac : Option ℚ := none
  maxBarHeightFrac : Option ℚ := none
  insideSlackPx : Option ℚ := none
  classMargin : Option ℚ := none
  minPrimaryAreaFrac : Option ℚ := none
  screenshotMinCoverFrac : Option ℚ := none
  screenshotBarBonus : Option ℚ := none
  screenshotBothBarsBonus : Option ℚ := none
  screenshotCoverBonus : Option ℚ := none
  altCandidateMaxDelta : Option ℚ := none
deriving DecidableEq, Repr

/-- `RefineOptions`: optional partial tolerances and the two flags. -/
structure RefineOptions where
  tol : Option PartialTol := none
  allowRetype : Option Bool := none
  keepDiagnostics : Option Bool := none
deriving DecidableEq, Repr

/-- `FullRefineConfig`. -/
structure FullRefineConfig where
  tol : Tol
  allowRetype : Bool
  keepDiagnostics : Bool
deriving DecidableEq, Repr

/-- The spread `{ ...DEFAULT_TOL, ...(options.tol ?? {}) }`. -/
def mergeTol (p : PartialTol) : Tol where
  minBarWidthFrac := p.minBarWidthFrac.getD DEFAULT_TOL.minBarWidthFrac
  topBottomBandFrac := p.topBottomBandFrac.getD DEFAULT_TOL.topBottomBandFrac
  maxBarHeightFrac := p.maxBarHeightFrac.getD DEFAULT_TOL.maxBarHeightFrac
  insideSlackPx := p.insideSlackPx.getD DEFAULT_TOL.insideSlackPx
  classMargin := p.classMargin.getD DEFAULT_TOL.classMargin
  minPrimaryAreaFrac := p.minPrimaryAreaFrac.getD DEFAULT_TOL.minPrimaryAreaFrac
  screenshotMinCoverFrac :=
    p.screenshotMinCoverFrac.getD DEFAULT_TOL.screenshotMinCoverFrac
  screenshotBarBonus := p.screenshotBarBonus.getD DEFAULT_TOL.screenshotBarBonus
  screenshotBothBarsBonus :=
    p.screenshotBothBarsBonus.getD DEFAULT_TOL.screenshotBothBarsBonus
  screenshotCoverBonus := p.screenshotCoverBonus.getD DEFAULT_TOL.screenshotCoverBonus
  altCandidateMaxDelta := p.altCandidateMaxDelta.getD DEFAULT_TOL.altCandidateMaxDelta

/-- `buildConfig(options)`: merge tolerances, default `allowRetype` and
`keepDiagnostics` to `true` (`DEFAULT_OPTS`). -/
def buildConfig (options : RefineOptions) : FullRefineConfig where
  tol := mergeTol (options.tol.getD {})
  allowRetype := options.allowRetype.getD true
  keepDiagnostics := options.keepDiagnostics.getD true

/-! ## Stable descending sort

JavaScript's `Array.prototype.sort` is stable and, with the comparator
`(a, b) => key(b) - key(a)`, produces the unique ordering that is descending
in `key` and keeps the original order among equal keys.  Insertion sort below
computes exactly that ordering. -/

/-- Insert `a` into a descending-sorted list, after every element with a
strictly greater key and before the first element whose key is not greater
(so `a` lands before elements with an equal key that originally came after
it). -/
def insertDescBy {α : Type} (key : α → ℚ) (a : α) : List α → List α
  | [] => [a]
  | b :: l => if key a < key b then b :: insertDescBy key a l else a :: b :: l

/-- Stable sort, descending by `key`. -/
def sortDescBy {α : Type} (key : α → ℚ) : List α → List α
  | [] => []
  | a :: l => insertDescBy key a (sortDescBy key l)

/-! ## Refiner helpers -/

/-- Which bar `validateBarNoMutate` is validating (`'top' | 'bottom'`). -/
inductive BarWhich where
  | top
  | bottom
deriving DecidableEq, Repr

/-- `validateBarNoMutate`: validate a status/navigation bar against the
container without changing its stored coordinates.  Returns the annotated
copy (or `none` on rejection) together with the trace notes pushed (note
text elides the interpolated numbers, which no consumer reads back). -/
def validateBarNoMutate (bar : Detection) (container : Box) (_W _H : ℚ)
    (which : BarWhich) (tol : Tol) : Option Detection × List String :=
  let cW := container.x2 - container.x1
  let cH := container.y2 - container.y1
  let minBarW := cW * tol.minBarWidthFrac
  let maxBarH := cH * tol.maxBarHeightFrac
  let bandH := cH * tol.topBottomBandFrac
  let inter := intersectBox bar.box container
  let interA := area inter
  if interA ≤ 0 then (none, ["drop " ++ bar.label ++ ": outside primaryBox"])
  else
    let bW := inter.x2 - inter.x1
    let bH := inter.y2 - inter.y1
    if bW < minBarW then (none, ["drop " ++ bar.label ++ ": too narrow"])
    else if maxBarH < bH then (none, ["drop " ++ bar.label ++ ": too tall"])
    else
      let cy := (inter.y1 + inter.y2) / 2
      match which with
      | BarWhich.top =>
        if container.y1 + bandH < cy then
          (none, ["drop Top status bar: vertical position invalid"])
        else
          (some { bar with meta := some { bar.meta.getD {} with
              source := some "refine", validated := some true,
              reason := some "bar_valid",
              metricsWidthFrac := some (bW / cW),
              metricsHeightFrac := some (bH / cH),
              metricsWhich := some "top" } }, [])
      | BarWhich.bottom =>
        if cy < container.y2 - bandH then
          (none, ["drop Bottom nav bar: vertical position invalid"])
        else
          (some { bar with meta := some { bar.meta.getD {} with
              source := some "refine", validated := some true,
              reason := some "bar_valid",
              metricsWidthFrac := some (bW / cW),
              metricsHeightFrac := some (bH / cH),
              metricsWhich := some "bottom" } }, [])

/-- The `preferred` label→type map of `pickMainType`. -/
def preferredType (label : String) : Option DocumentType :=
  if label = "Receipt" then some DocumentType.RECEIPT
  else if label = "Document" then some DocumentType.DOCUMENT
  else if label = "Screenshot" then some DocumentType.SCREENSHOT
  else none

/-- One step of building the `byClass` map: insertion-ordered association
list, an entry replaced in place when a strictly higher score arrives
(`(d.score ?? 0) > (prev.score ?? 0)`). -/
def updateByClass (m : List (String × Detection)) (d : Detection) :
    List (String × Detection) :=
  match m.find? (fun p => p.1 = d.label) with
  | none => m ++ [(d.label, d)]
  | some prev =>
    if prev.2.score < d.score then
      m.map (fun p => if p.1 = d.label then (d.label, d) else p)
    else m

/-- The `byClass` map of `pickMainType`: best detection per preferred label,
in first-occurrence order (a JavaScript `Map` iterates in insertion order). -/
def byClassOf (dets : List Detection) : List (String × Detection) :=
  dets.foldl
    (fun m d => if (preferredType d.label).isSome then updateByClass m d else m) []

/-- The result triple of `pickMainType`. -/
structure MainPick where
  type : DocumentType
  conf : ℚ
  primary : Option Detection
deriving DecidableEq, Repr

/-- `pickMainType`: main class selection with the Screenshot bar boost and the
`classMargin` tie-breakers. -/
def pickMainType (result : AnalysisResult) (tol : Tol) : MainPick × List String :=
  let byClass := byClassOf result.detections
  match byClass with
  | [] =>
    (⟨result.summary.documentType, result.summary.confidence.getD 0, none⟩, [])
  | c0 :: crest =>
    let hasTop := result.detections.any (fun d => d.label = "Top status bar")
    let hasBot := result.detections.any (fun d => d.label = "Bottom nav bar")
    let boost := fun (lbl : String) (s : ℚ) =>
      if lbl = "Screenshot" ∧ (hasTop ∨ hasBot) then s + 1/20 else s
    let cand := sortDescBy (fun p => boost p.1 p.2.score) (c0 :: crest)
    match cand with
    | [] => (⟨result.summary.documentType, result.summary.confidence.getD 0, none⟩, [])
    | best :: candRest =>
      let withTie :=
        match candRest with
        | [] => (best, ([] : List String))
        | second :: _ =>
          if |best.2.score - second.2.score| < tol.classMargin then
            if hasTop ∨ hasBot then
              ((cand.find? (fun c : String × Detection => c.1 = "Screenshot")).getD best,
                ["tie-breaker: bars present, prefer Screenshot"])
            else if 13/20 ≤ result.meta.aspectRatio ∧
                (byClass.find? (fun p : String × Detection => p.1 = "Document")).isSome then
              ((cand.find? (fun c : String × Detection => c.1 = "Document")).getD best,
                ["tie-breaker: AR near A4 and no bars, prefer Document"])
            else (best, [])
          else (best, [])
      let pick := withTie.1
      (⟨(preferredType pick.1).getD DocumentType.UNKNOWN, pick.2.score,
        some pick.2⟩, withTie.2)

/-- The result record of `scoreScreenshot`. -/
structure ScreenshotScore where
  score : ℚ
  cover : JNum
  validBars : ℕ
deriving DecidableEq, Repr

/-- `scoreScreenshot`: base confidence plus bar and coverage bonuses.  The
coverage fraction `area(container) / (frameW * frameH)` is an unguarded
JavaScript division, modelled with `jdiv`. -/
def scoreScreenshot (container : Box) (topOk botOk : Option Detection)
    (frameW frameH baseConf : ℚ) (tol : Tol) : ScreenshotScore :=
  let cover := jdiv (area container) (frameW * frameH)
  let score1 := baseConf
  let score2 := if topOk.isSome then score1 + tol.screenshotBarBonus else score1
  let score3 := if botOk.isSome then score2 + tol.screenshotBarBonus else score2
  let validBars := (if topOk.isSome then 1 else 0) + (if botOk.isSome then 1 else 0)
  let score4 := if validBars = 2 then score3 + tol.screenshotBothBarsBonus else score3
  let score5 :=
    if cover.geQ tol.screenshotMinCoverFrac then score4 + tol.screenshotCoverBonus
    else score4
  ⟨score5, cover, validBars⟩

/-- The label that should mirror the summary's `documentType` in the
detection list (`wantedLbl` of stages 8 and 11; `Unknown` has none). -/
def wantedLabelOf : DocumentType → Option String
  | DocumentType.SCREENSHOT => some "Screenshot"
  | DocumentType.DOCUMENT => some "Document"
  | DocumentType.RECEIPT => some "Receipt"
  | DocumentType.UNKNOWN => none

/-- The running maximum of `upsertPrimaryDetection`: fold the detections,
keeping the best IoU with the primary box among those carrying the wanted
label (`if (v > bestIou) bestIou = v`). -/
def bestIouFor (dets : List Detection) (lbl : String) (pb : Box) : ℚ :=
  dets.foldl
    (fun acc d =>
      if d.label = lbl then (if acc < iou d.box pb then iou d.box pb else acc)
      else acc) 0

/-- The synthetic detection `upsertPrimaryDetection` appends. -/
def synthPrimaryDet (lbl : String) (conf : Option ℚ) (pb : Box) : Detection :=
  ⟨lbl, conf.getD 0, pb,
    some { synthetic := some true, source := some "refine",
           reason := some "matches_primaryBox" }⟩

/-- `upsertPrimaryDetection`: when a primary box and a wanted label exist and
no detection of that label reaches IoU ≥ 0.90 with the primary box, append a
synthetic detection copying the primary box. -/
def upsertPrimaryDetection (out : AnalysisResult) (wantedLbl : Option String) :
    AnalysisResult × List String :=
  match out.summary.primaryBox, wantedLbl with
  | some pb, some lbl =>
    if 9/10 ≤ bestIouFor out.detections lbl pb then (out, [])
    else
      ({ out with detections :=
          out.detections ++ [synthPrimaryDet lbl out.summary.confidence pb] },
        ["detections: inserted synthetic main-class box to match primaryBox"])
  | _, _ => (out, [])

/-! ## The refinement pipeline (`refineDocumentAnalysis`) -/

/-- `Math.max(...)` over a nonempty list given as head and tail. -/
def listMax (x : ℚ) (xs : List ℚ) : ℚ := xs.foldl max x

/-- The primary-box coverage fraction of stage 3:
`frameA > 0 ? primA / frameA : 0` (the one guarded division of the
refiner). -/
def primaryCoverFrac (primA frameA : ℚ) : ℚ :=
  if 0 < frameA then primA / frameA else 0

/-- Stage 3: primary-box establishment — adopt the picked candidate's box when
none exists, clamp to image bounds, recompute coverage (guarded division) and
flip `quality.isPartial` when the flag changes. -/
def refineStage3Primary (W H : ℚ) (tol : Tol) (primary : Option Detection)
    (s : Summary) : Summary × List String :=
  let adopted :=
    match s.primaryBox, primary with
    | none, some p =>
      ({ s with primaryBox := some p.box },
        ["primaryBox: adopted from best main-class detection"])
    | _, _ => (s, ([] : List String))
  let s1 := adopted.1
  match s1.primaryBox with
  | none => adopted
  | some pb0 =>
    let pb : Box := ⟨clamp pb0.x1 0 W, clamp pb0.y1 0 H,
                     clamp pb0.x2 0 W, clamp pb0.y2 0 H⟩
    let cover := primaryCoverFrac (area pb) (W * H)
    let wasPartial := (s1.quality.bind Quality.isPartialFlag).getD false
    let isP : Bool := decide (cover < tol.minPrimaryAreaFrac)
    if isP ≠ wasPartial then
      ({ s1 with
          primaryBox := some pb,
          quality := some { (s1.quality.getD {}) with isPartialFlag := some isP } },
        adopted.2 ++ (if isP then ["flag partial: primary area below threshold"] else []))
    else ({ s1 with primaryBox := some pb }, adopted.2)

/-- The best Screenshot detection of the raw input
(`filter('Screenshot').sort(score desc)[0]`). -/
def bestScreenshotOf (inputDets : List Detection) : Option Detection :=
  (sortDescBy Detection.score
    (inputDets.filter (fun d => d.label = "Screenshot"))).head?

/-- The Screenshot container: the best Screenshot detection's box, else the
full frame. -/
def screenshotContainerOf (inputDets : List Detection) (W H : ℚ) : Box :=
  match bestScreenshotOf inputDets with
  | some b => b.box
  | none => ⟨0, 0, W, H⟩

/-- The best Document-or-Receipt alternative of the raw input
(`filter(Document|Receipt).sort(score desc)[0]`). -/
def bestAltOf (inputDets : List Detection) : Option Detection :=
  (sortDescBy Detection.score
    (inputDets.filter (fun d => d.label = "Document" ∨ d.label = "Receipt"))).head?

/-- The alternative's comparison score: raw score plus half its IoU with the
container. -/
def altScoreOf (a : Detection) (container : Box) : ℚ :=
  a.score + (1/2) * iou a.box container

/-- The alternative's document type (`Document ↦ DOCUMENT`, else `RECEIPT`). -/
def altTypeOf (a : Detection) : DocumentType :=
  if a.label = "Document" then DocumentType.DOCUMENT else DocumentType.RECEIPT

/-- The label a bar slot looks for. -/
def barLabelOf : BarWhich → String
  | BarWhich.top => "Top status bar"
  | BarWhich.bottom => "Bottom nav bar"

/-- Find the raw bar of a slot and validate it against the container
(`topRaw ? validateBarNoMutate(...) : null`). -/
def validatedBar (bars : List Detection) (container : Box) (W H : ℚ)
    (which : BarWhich) (tol : Tol) : Option Detection × List String :=
  match bars.find? (fun d => d.label = barLabelOf which) with
  | some b => validateBarNoMutate b container W H which tol
  | none => (none, [])

/-- The base confidence of the Screenshot score:
`summary.confidence ?? (bestScreenshot?.score ?? 0)`. -/
def screenshotBaseConf (s : Summary) (inputDets : List Detection) : ℚ :=
  s.confidence.getD (match bestScreenshotOf inputDets with
    | some b => b.score
    | none => 0)

/-- Stage 6 (the `summary.documentType === SCREENSHOT` block): validate bars,
score the Screenshot hypothesis, and either switch to the best
Document/Receipt alternative or stay Screenshot (forcing the primary box and
appending validated bars). -/
def refineStage6Screenshot (inputDets : List Detection) (W H : ℚ)
    (cfg : FullRefineConfig) (bars : List Detection) (s : Summary)
    (outDets : List Detection) : Summary × List Detection × List String :=
  let bestScreenshot := bestScreenshotOf inputDets
  let container := screenshotContainerOf inputDets W H
  let topPair := validatedBar bars container W H BarWhich.top cfg.tol
  let botPair := validatedBar bars container W H BarWhich.bottom cfg.tol
  let topOk := topPair.1
  let botOk := botPair.1
  let sc := scoreScreenshot container topOk botOk W H
    (screenshotBaseConf s inputDets) cfg.tol
  let alt := bestAltOf inputDets
  let notesV := topPair.2 ++ botPair.2
  -- the stay-Screenshot branch
  let containerCover := jdiv (area container) (W * H)
  let keepSummary :=
    if bestScreenshot.isNone ∨ containerCover.ltQ cfg.tol.screenshotMinCoverFrac then
      ({ s with primaryBox := some ⟨0, 0, W, H⟩, confidence := some sc.score },
        ["primaryBox: forced to full frame for Screenshot"])
    else
      ({ s with primaryBox := some container, confidence := some sc.score },
        ([] : List String))
  let keepResult : Summary × List Detection × List String :=
    (keepSummary.1, outDets ++ topOk.toList ++ botOk.toList,
      notesV ++ keepSummary.2)
  match alt with
  | some a =>
    let needSwitch :=
      sc.cover.ltQ cfg.tol.screenshotMinCoverFrac ∧
      sc.score - cfg.tol.altCandidateMaxDelta ≤ altScoreOf a container
    if needSwitch ∧ cfg.allowRetype then
      ({ s with
          documentType := altTypeOf a,
          confidence := some a.score,
          primaryBox := some a.box },
        outDets, notesV ++ ["switch: Screenshot to alternative"])
    else keepResult
  | none => keepResult

/-- Stage 7: Document-vs-Receipt conflict resolution by the best
`score + IoU(primary box)` sum. -/
def refineStage7DocRec (cfg : FullRefineConfig) (s : Summary)
    (outDets : List Detection) : Summary × List Detection × List String :=
  let docs := outDets.filter (fun d => d.label = "Document")
  let recs := outDets.filter (fun d => d.label = "Receipt")
  match docs, recs, s.primaryBox with
  | d0 :: drest, r0 :: rrest, some pb =>
    if cfg.allowRetype then
      let scoreDoc := listMax d0.score (drest.map Detection.score)
      let scoreRec := listMax r0.score (rrest.map Detection.score)
      let iouDoc := listMax (iou d0.box pb) (drest.map (fun d => iou d.box pb))
      let iouRec := listMax (iou r0.box pb) (rrest.map (fun d => iou d.box pb))
      let keepDoc : Bool := decide (scoreRec + iouRec ≤ scoreDoc + iouDoc)
      let keepLbl := if keepDoc then "Document" else "Receipt"
      let outDets2 := outDets.filter
        (fun d => d.label = keepLbl ∨ (d.label ≠ "Document" ∧ d.label ≠ "Receipt"))
      let wantType := if keepDoc then DocumentType.DOCUMENT else DocumentType.RECEIPT
      if s.documentType ≠ wantType then
        ({ s with
            documentType := wantType,
            confidence := some (if keepDoc then scoreDoc else scoreRec) },
          outDets2, ["resolve doc/receipt conflict"])
      else (s, outDets2, [])
    else (s, outDets, [])
  | _, _, _ => (s, outDets, [])

/-- Stage 8: replace the primary box by the best current-type detection's box
when that detection's IoU with the old primary box is below 0.5. -/
def refineStage8PrimaryFix (cfg : FullRefineConfig) (s : Summary)
    (outDets : List Detection) : Summary × List String :=
  match s.primaryBox with
  | some pb =>
    if cfg.allowRetype then
      let wl := wantedLabelOf s.documentType
      let cands := outDets.filter (fun d => d.label = wl.getD "")
      match sortDescBy (fun d => d.score + (1/2) * iou d.box pb) cands with
      | [] => (s, [])
      | best :: _ =>
        if iou best.box pb < 1/2 then
          ({ s with primaryBox := some best.box },
            ["primaryBox: replaced by best current-type detection (low IoU with old)"])
        else (s, [])
    else (s, [])
  | none => (s, [])

/-- The synthetic full-frame Document detection of the Unknown fallback. -/
def fullFrameDoc (W H : ℚ) : Detection :=
  ⟨"Document", 0, ⟨0, 0, W, H⟩,
    some { synthetic := some true, source := some "fallback",
           reason := some "unknown_full_frame" }⟩

/-- Stage 9: Unknown fallback — synthesize a full-frame Document detection
(prepended unless some raw Document/Screenshot detection has IoU strictly
above 0.95 with the full frame), default the primary box to the full frame,
and force `quality.isPartial = false`. -/
def refineStage9Unknown (inputDets : List Detection) (W H : ℚ) (s : Summary)
    (outDets : List Detection) : Summary × List Detection × List String :=
  if s.documentType = DocumentType.UNKNOWN then
    let fullDoc := fullFrameDoc W H
    let withPb :=
      match s.primaryBox with
      | none => ({ s with primaryBox := some fullDoc.box },
          ["primaryBox: synthesized full-frame for Unknown"])
      | some _ => (s, ([] : List String))
    let s1 := withPb.1
    let hasNearFullDoc := inputDets.any (fun d =>
      decide ((d.label = "Document" ∨ d.label = "Screenshot") ∧
        19/20 < iou d.box fullDoc.box))
    let withDets :=
      if ¬hasNearFullDoc then
        (fullDoc :: outDets, ["synth detection: Document full-frame for Unknown"])
      else (outDets, ([] : List String))
    ({ s1 with
        quality := some { (s1.quality.getD {}) with isPartialFlag := some false } },
      withDets.1, withPb.2 ++ withDets.2)
  else (s, outDets, [])

/-- Stages 1–8 of the pipeline: main-type selection, conditional retype,
primary-box establishment, bar segregation, the drop-bars note, the
Screenshot block, Document-vs-Receipt resolution and primary-box
correction.  Returns the working summary, the working detection list and the
accumulated trace notes. -/
def refineCore (input : AnalysisResult) (cfg : FullRefineConfig) :
    Summary × List Detection × List String :=
  let W := input.meta.width
  let H := input.meta.height
  let mpPair := pickMainType input cfg.tol
  let mp := mpPair.1
  let retyped :=
    if cfg.allowRetype ∧ mp.type ≠ input.summary.documentType then
      ({ input.summary with documentType := mp.type, confidence := some mp.conf },
        ["retype to selected main class"])
    else (input.summary, ([] : List String))
  let stage3 := refineStage3Primary W H cfg.tol mp.primary retyped.1
  let s3 := stage3.1
  let bars := input.detections.filter
    (fun d => d.label = "Top status bar" ∨ d.label = "Bottom nav bar")
  let rest := input.detections.filter
    (fun d => ¬(d.label = "Top status bar" ∨ d.label = "Bottom nav bar"))
  let n5 :=
    if s3.documentType ≠ DocumentType.SCREENSHOT ∧ bars ≠ [] then
      ["drop bars: non-screenshot type"]
    else []
  let stage6 :=
    if s3.documentType = DocumentType.SCREENSHOT then
      refineStage6Screenshot input.detections W H cfg bars s3 rest
    else (s3, rest, [])
  let stage7 := refineStage7DocRec cfg stage6.1 stage6.2.1
  let stage8 := refineStage8PrimaryFix cfg stage7.1 stage7.2.1
  (stage8.1, stage7.2.1,
    mpPair.2 ++ retyped.2 ++ stage3.2 ++ n5 ++ stage6.2.2 ++ stage7.2.2 ++ stage8.2)

/-- The working result assembled after stage 9 (the `out` object of stage 10
before the upsert): stages 1–8 (`refineCore`) then the Unknown fallback. -/
def refinePre (input : AnalysisResult) (options : RefineOptions) :
    AnalysisResult :=
  let cfg := buildConfig options
  let core := refineCore input cfg
  let stage9 := refineStage9Unknown input.detections input.meta.width
    input.meta.height core.1 core.2.1
  { input with summary := stage9.1, detections := stage9.2.1 }

/-- The trace notes of stages 1–9. -/
def refinePreNotes (input : AnalysisResult) (options : RefineOptions) :
    List String :=
  let cfg := buildConfig options
  let core := refineCore input cfg
  let stage9 := refineStage9Unknown input.detections input.meta.width
    input.meta.height core.1 core.2.1
  core.2.2 ++ stage9.2.2

/-- `refineDocumentAnalysis`: the full pipeline — stages 1–8 (`refineCore`),
the Unknown fallback (`refinePre`), the primary-detection upsert and the
diagnostics append. -/
def refineDocumentAnalysis (input : AnalysisResult)
    (options : RefineOptions) : AnalysisResult :=
  let cfg := buildConfig options
  let outPre := refinePre input options
  let upPair := upsertPrimaryDetection outPre
    (wantedLabelOf outPre.summary.documentType)
  let outUp := upPair.1
  if cfg.keepDiagnostics then
    { outUp with diagnostics :=
        outUp.diagnostics ++ (refinePreNotes input options ++ upPair.2) }
  else outUp

/-! ## The YOLOv8 ONNX decode pipeline
(`src/detectors/yolo-v8-onnx.detector.ts`) -/

/-- A decoded candidate: center `x, y`, size `w, h` in padded model space,
`classId` and raw `confidence`. -/
structure Cand where
  x : ℚ
  y : ℚ
  w : ℚ
  h : ℚ
  classId : ℕ
  confidence : ℚ
deriving DecidableEq, Repr

/-- `Math.round`: round half toward positive infinity, `⌊x + 1/2⌋`. -/
def jsRound (q : ℚ) : ℤ := ⌊q + 1/2⌋

/-- `calculateIoU` on center+size boxes: corners, clamped intersection,
`union > 0 ? inter / union : 0`. -/
def calculateIoU (a b : Cand) : ℚ :=
  let ix1 := max (a.x - a.w / 2) (b.x - b.w / 2)
  let iy1 := max (a.y - a.h / 2) (b.y - b.h / 2)
  let ix2 := min (a.x + a.w / 2) (b.x + b.w / 2)
  let iy2 := min (a.y + a.h / 2) (b.y + b.h / 2)
  let interArea := max 0 (ix2 - ix1) * max 0 (iy2 - iy1)
  let unionArea := a.w * a.h + b.w * b.h - interArea
  if 0 < unionArea then interArea / unionArea else 0

/-- The greedy loop of `applyNMS` over a sorted pool: keep the head, drop
every remaining same-class candidate whose IoU with it reaches the
threshold. -/
def nmsLoop (τ : ℚ) : List Cand → List Cand
  | [] => []
  | c :: pool =>
    c :: nmsLoop τ (pool.filter (fun b =>
        decide (b.classId ≠ c.classId ∨ calculateIoU c b < τ)))
termination_by l => l.length
decreasing_by
  simp only [List.length_cons]
  exact Nat.lt_succ_of_le (List.length_filter_le _ _)

/-- `applyNMS`: stable sort descending by confidence, then the greedy
suppression loop. -/
def applyNMS (τ : ℚ) (boxes : List Cand) : List Cand :=
  nmsLoop τ (sortDescBy Cand.confidence boxes)

/-- The per-anchor class argmax of the parser: fold over class indices with a
strict `>` (`-Infinity` start modelled by `none`), keeping the first class on
ties. -/
def bestClassFold (classScore : ℕ → ℚ) (numClasses : ℕ) : Option (ℚ × ℕ) :=
  (List.range numClasses).foldl
    (fun acc c =>
      match acc with
      | none => some (classScore c, c)
      | some (bs, bc) => if bs < classScore c then some (classScore c, c)
        else some (bs, bc))
    none

/-- Decode anchor `i` of the output tensor: read the box, discard
non-positive sizes, take the best raw class score, and keep the candidate
only when that score is strictly positive. -/
def anchorCand (data : ℕ → ℚ) (channelFirst : Bool) (n expected numClasses i : ℕ) :
    Option Cand :=
  let x := if channelFirst then data (0 * n + i) else data (i * expected + 0)
  let y := if channelFirst then data (1 * n + i) else data (i * expected + 1)
  let w := if channelFirst then data (2 * n + i) else data (i * expected + 2)
  let h := if channelFirst then data (3 * n + i) else data (i * expected + 3)
  if w ≤ 0 ∨ h ≤ 0 then none
  else
    let score := fun c : ℕ =>
      if channelFirst then data ((4 + c) * n + i) else data (i * expected + 4 + c)
    match bestClassFold score numClasses with
    | none => none
    | some (bestScore, bestClass) =>
      if 0 < bestScore then some ⟨x, y, w, h, bestClass, bestScore⟩ else none

/-- `dims[i]` with JavaScript's out-of-range read collapsed to `0` (the
surrounding length check makes the two readings agree). -/
def dimAt (dims : List ℕ) (i : ℕ) : ℕ := (dims.get? i).getD 0

/-- The first expected layout `[1, 4+numClasses, N]` (channel-first). -/
def layoutChannelFirst (dims : List ℕ) (numClasses : ℕ) : Prop :=
  dims.length = 3 ∧ dimAt dims 0 = 1 ∧ dimAt dims 1 = 4 + numClasses

/-- The second expected layout `[1, N, 4+numClasses]` (channel-last). -/
def layoutChannelLast (dims : List ℕ) (numClasses : ℕ) : Prop :=
  dims.length = 3 ∧ dimAt dims 0 = 1 ∧ dimAt dims 2 = 4 + numClasses

instance (dims : List ℕ) (numClasses : ℕ) :
    Decidable (layoutChannelFirst dims numClasses) := by
  unfold layoutChannelFirst; infer_instance

instance (dims : List ℕ) (numClasses : ℕ) :
    Decidable (layoutChannelLast dims numClasses) := by
  unfold layoutChannelLast; infer_instance

/-- `parseYoloOnnxOutputCorrect`: pick the layout by inspecting the
dimensions (`Unexpected output shape` when neither matches), decode every
anchor, and sort the results descending by confidence. -/
def parseYoloOnnxOutputCorrect (data : ℕ → ℚ) (dims : List ℕ) (numClasses : ℕ) :
    Except String (List Cand) :=
  let expected := 4 + numClasses
  if layoutChannelFirst dims numClasses then
    let n := dimAt dims 2
    Except.ok (sortDescBy Cand.confidence
      ((List.range n).filterMap (anchorCand data true n expected numClasses)))
  else if layoutChannelLast dims numClasses then
    let n := dimAt dims 1
    Except.ok (sortDescBy Cand.confidence
      ((List.range n).filterMap (anchorCand data false n expected numClasses)))
  else Except.error ("Unexpected output shape: " ++ String.intercalate "x"
    (dims.map toString))

/-- The coordinate remapper of `postprocessOutput`: center+size to corners,
subtract pad, divide by scale, round, clamp `x1, y1` from below at 0 and
`x2, y2` from above at the original width/height. -/
def remapBox (scale padX padY : ℚ) (origW origH : ℤ) (c : Cand) : Box :=
  let x1 := (c.x - c.w / 2 - padX) / scale
  let y1 := (c.y - c.h / 2 - padY) / scale
  let x2 := (c.x + c.w / 2 - padX) / scale
  let y2 := (c.y + c.h / 2 - padY) / scale
  ⟨(max 0 (jsRound x1) : ℤ), (max 0 (jsRound y1) : ℤ),
    (min origW (jsRound x2) : ℤ), (min origH (jsRound y2) : ℤ)⟩

/-- `CLASS_NAMES[classId]` (an out-of-range read yields `undefined`; every
decoded candidate's classId is below `numClasses` in practice, and the label
content is irrelevant to the geometric claims). -/
def labelOf (classNames : List String) (classId : ℕ) : String :=
  (classNames.get? classId).getD "undefined"

/-- The detection built from one surviving candidate. -/
def remapDetection (classNames : List String) (scale padX padY : ℚ)
    (origW origH : ℤ) (c : Cand) : Detection :=
  ⟨labelOf classNames c.classId, c.confidence, remapBox scale padX padY origW origH c,
    none⟩

/-- `postprocessOutput` from parsed candidates onward: confidence threshold
filter, per-class NMS, coordinate remapping. -/
def postprocessCands (classNames : List String) (confThreshold iouThreshold : ℚ)
    (scale padX padY : ℚ) (origW origH : ℤ) (parsed : List Cand) :
    List Detection :=
  let filtered := parsed.filter (fun p => decide (confThreshold < p.confidence))
  let nmsBoxes := applyNMS iouThreshold filtered
  nmsBoxes.map (remapDetection classNames scale padX padY origW origH)

/-! ## The detector constructor (option defaulting and the class-name table) -/

/-- JavaScript `opts?.field || dflt` for a numeric option: `undefined` and the
falsy value `0` both fall back to the default. -/
def jsOrNum (o : Option ℚ) (dflt : ℚ) : ℚ :=
  match o with
  | none => dflt
  | some v => if v = 0 then dflt else v

/-- JavaScript `opts?.field || dflt` for a string option: `undefined` and the
falsy empty string fall back. -/
def jsOrStr (o : Option String) (dflt : String) : String :=
  match o with
  | none => dflt
  | some v => if v = "" then dflt else v

/-- JavaScript `opts?.classNames || dflt`: any array — including an empty
one — is truthy, so only `undefined` falls back. -/
def jsOrArr (o : Option (List String)) (dflt : List String) : List String :=
  o.getD dflt

/-- The constructor's options object. -/
structure DetectorOptions where
  modelPath : Option String := none
  inputSize : Option ℚ := none
  confidenceThreshold : Option ℚ := none
  iouThreshold : Option ℚ := none
  classNames : Option (List String) := none
deriving DecidableEq, Repr

/-- The constructed detector's configuration fields. -/
structure DetectorState where
  modelPath : String
  inputSize : ℚ
  confidenceThreshold : ℚ
  iouThreshold : ℚ
  classNames : List String
deriving DecidableEq, Repr

/-- A JavaScript whitespace character (the ones relevant to class-name
lines). -/
def jsWhitespace (c : Char) : Bool :=
  c = ' ' ∨ c = '\t' ∨ c = '\n' ∨ c = '\r'

/-- JavaScript `String.prototype.trim`: strip leading and trailing
whitespace. -/
def jsTrim (s : String) : String :=
  ⟨(((s.data.dropWhile jsWhitespace).reverse.dropWhile jsWhitespace).reverse)⟩

/-- `detectAndReadClassesTxt`'s processing of the `classes.txt` content:
split into lines (the split is abstracted as the line list), trim each, drop
blanks; a missing or unreadable file leaves the class list empty. -/
def classesFromTxt (classesTxt : Option (List String)) : List String :=
  match classesTxt with
  | some lines => (lines.map jsTrim).filter (fun s => s ≠ "")
  | none => []

/-- The `YoloV8OnnxDetector` constructor: `||`-defaulting of every option,
then the `classes.txt` fallback when the class list is empty, and a fatal
configuration error when it stays empty. -/
def yoloConstructor (opts : DetectorOptions) (classesTxt : Option (List String)) :
    Except String DetectorState :=
  let modelPath := jsOrStr opts.modelPath "./models/yolo/800-50/best.onnx"
  let inputSize := jsOrNum opts.inputSize 800
  let confidenceThreshold := jsOrNum opts.confidenceThreshold (1/10)
  let iouThreshold := jsOrNum opts.iouThreshold (9/20)
  let cn0 := jsOrArr opts.classNames []
  let cn := if cn0.length = 0 then classesFromTxt classesTxt else cn0
  if cn.length = 0 then Except.error "ConfigurationError: empty class list"
  else Except.ok ⟨modelPath, inputSize, confidenceThreshold, iouThreshold, cn⟩

/-! ## A heap model of the refiner's mutations

JavaScript objects are reference values: the non-mutation property of
`refineDocumentAnalysis` (its input's detections array, detection objects and
summary object are untouched) is a statement about the heap, not about
values.  The model below re-traces the pipeline with the source's
allocations (`copy`, array/object literals, `filter`) and writes (field
assignments on the summary copy, `push` on the fresh working array) made
explicit.  Pure computations on already-read values reuse the value-level
stage functions above. -/

/-- A heap object: a detection object, an array of references to detections,
or a summary object (whose nested `primaryBox`/`quality` are deep-copied
together with it by `copy = JSON.parse ∘ JSON.stringify`, hence modelled as
part of its value). -/
inductive HObj where
  | det (d : Detection)
  | arr (elems : List ℕ)
  | summ (s : Summary)
deriving DecidableEq, Repr

/-- A heap: a partial store over numeric addresses and the next fresh
address. -/
structure Heap where
  store : ℕ → Option HObj
  next : ℕ

/-- Well-formed heap: nothing is stored at or above the allocation
frontier. -/
def Heap.WF (h : Heap) : Prop := ∀ a, h.next ≤ a → h.store a = none

/-- Allocate a fresh object; returns the new heap and the fresh address. -/
def Heap.alloc (h : Heap) (v : HObj) : Heap × ℕ :=
  (⟨fun b => if b = h.next then some v else h.store b, h.next + 1⟩, h.next)

/-- Overwrite the object at an existing address. -/
def Heap.write (h : Heap) (a : ℕ) (v : HObj) : Heap :=
  ⟨fun b => if b = a then some v else h.store b, h.next⟩

/-- Read a detection object (a junk default off-type, never exercised on
well-formed inputs). -/
def Heap.readDet (h : Heap) (a : ℕ) : Detection :=
  match h.store a with
  | some (HObj.det d) => d
  | _ => ⟨"", 0, ⟨0, 0, 0, 0⟩, none⟩

/-- Read an array object. -/
def Heap.readArr (h : Heap) (a : ℕ) : List ℕ :=
  match h.store a with
  | some (HObj.arr l) => l
  | _ => []

/-- Read a summary object. -/
def Heap.readSumm (h : Heap) (a : ℕ) : Summary :=
  match h.store a with
  | some (HObj.summ s) => s
  | _ => ⟨DocumentType.UNKNOWN, none, none, none⟩

/-- `arr.push(det)` on a fresh detection value: allocate the object, append
its address to the array at `outA`. -/
def Heap.pushNewDet (h : Heap) (outA : ℕ) (d : Detection) : Heap :=
  let al := h.alloc (HObj.det d)
  al.1.write outA (HObj.arr (al.1.readArr outA ++ [al.2]))

/-- The input result as the orchestrator holds it: image metadata plus
references to the summary object and the detections array (`diagnostics`
strings are immutable primitives). -/
structure HResult where
  meta : ResultMeta
  summaryRef : ℕ
  detArrRef : ℕ
  diagnostics : List String
deriving Repr

/-- The stay-Screenshot tail of heap-level stage 6: write the updated summary
to the copy at `sA`, then push the validated bar copies (fresh objects) onto
the working array at `outA`. -/
def refineHeapStage6Keep (h : Heap) (sA outA : ℕ) (sKeep : Summary)
    (topOk botOk : Option Detection) : Heap :=
  let hk := h.write sA (HObj.summ sKeep)
  let ht := match topOk with | some d => hk.pushNewDet outA d | none => hk
  match botOk with | some d => ht.pushNewDet outA d | none => ht

/-- Heap-level stage 6 (the Screenshot block): writes the summary copy at
`sA`; in the stay-Screenshot branch pushes the validated bar copies (fresh
objects) onto the working array at `outA`. -/
def refineHeapStage6 (h : Heap) (inputDets : List Detection) (W H : ℚ)
    (cfg : FullRefineConfig) (bars : List Detection) (sA outA : ℕ) : Heap :=
  let s := h.readSumm sA
  let bestScreenshot := bestScreenshotOf inputDets
  let container := screenshotContainerOf inputDets W H
  let topOk := (validatedBar bars container W H BarWhich.top cfg.tol).1
  let botOk := (validatedBar bars container W H BarWhich.bottom cfg.tol).1
  let sc := scoreScreenshot container topOk botOk W H
    (screenshotBaseConf s inputDets) cfg.tol
  let alt := bestAltOf inputDets
  let containerCover := jdiv (area container) (W * H)
  -- the stay-Screenshot branch: a summary write, then push the valid bars
  let sKeep :=
    if bestScreenshot.isNone ∨ containerCover.ltQ cfg.tol.screenshotMinCoverFrac then
      { s with primaryBox := some (⟨0, 0, W, H⟩ : Box), confidence := some sc.score }
    else { s with primaryBox := some container, confidence := some sc.score }
  match alt with
  | some a =>
    let needSwitch :=
      sc.cover.ltQ cfg.tol.screenshotMinCoverFrac ∧
      sc.score - cfg.tol.altCandidateMaxDelta ≤ altScoreOf a container
    if needSwitch ∧ cfg.allowRetype then
      h.write sA (HObj.summ { s with
        documentType := altTypeOf a, confidence := some a.score,
        primaryBox := some a.box })
    else refineHeapStage6Keep h sA outA sKeep topOk botOk
  | none => refineHeapStage6Keep h sA outA sKeep topOk botOk

/-- Heap-level stage 7 (Document-vs-Receipt): `outDetections.filter(...)`
allocates a fresh array; the conditional retype writes the summary copy.
Returns the heap and the address of the current working array. -/
def refineHeapStage7 (h : Heap) (cfg : FullRefineConfig) (sA outA : ℕ) :
    Heap × ℕ :=
  let s := h.readSumm sA
  let addrs := h.readArr outA
  let docs := addrs.filter (fun a => (h.readDet a).label = "Document")
  let recs := addrs.filter (fun a => (h.readDet a).label = "Receipt")
  match docs, recs, s.primaryBox with
  | d0 :: drest, r0 :: rrest, some pb =>
    if cfg.allowRetype then
      let scoreDoc := listMax (h.readDet d0).score
        (drest.map (fun a => (h.readDet a).score))
      let scoreRec := listMax (h.readDet r0).score
        (rrest.map (fun a => (h.readDet a).score))
      let iouDoc := listMax (iou (h.readDet d0).box pb)
        (drest.map (fun a => iou (h.readDet a).box pb))
      let iouRec := listMax (iou (h.readDet r0).box pb)
        (rrest.map (fun a => iou (h.readDet a).box pb))
      let keepDoc : Bool := decide (scoreRec + iouRec ≤ scoreDoc + iouDoc)
      let keepLbl := if keepDoc then "Document" else "Receipt"
      let keepAddrs := addrs.filter (fun a =>
        let d := h.readDet a
        decide (d.label = keepLbl ∨ (d.label ≠ "Document" ∧ d.label ≠ "Receipt")))
      let al := h.alloc (HObj.arr keepAddrs)
      let h1 := al.1
      let wantType := if keepDoc then DocumentType.DOCUMENT else DocumentType.RECEIPT
      let h2 :=
        if s.documentType ≠ wantType then
          h1.write sA (HObj.summ { s with
            documentType := wantType,
            confidence := some (if keepDoc then scoreDoc else scoreRec) })
        else h1
      (h2, al.2)
    else (h, outA)
  | _, _, _ => (h, outA)

/-- Heap-level stage 8 (primary-box correction): at most one write to the
summary copy. -/
def refineHeapStage8 (h : Heap) (cfg : FullRefineConfig) (sA outA : ℕ) : Heap :=
  let s := h.readSumm sA
  let outDets := (h.readArr outA).map h.readDet
  match s.primaryBox with
  | some pb =>
    if cfg.allowRetype then
      let wl := wantedLabelOf s.documentType
      let cands := outDets.filter (fun d => d.label = wl.getD "")
      match sortDescBy (fun d => d.score + (1/2) * iou d.box pb) cands with
      | [] => h
      | best :: _ =>
        if iou best.box pb < 1/2 then
          h.write sA (HObj.summ { s with primaryBox := some best.box })
        else h
    else h
  | none => h

/-- Heap-level stage 9 (Unknown fallback): writes the summary copy; the
synthetic full-frame detection and the spread `[fullDoc, ...outDetections]`
are fresh allocations.  Returns the heap and the current working-array
address. -/
def refineHeapStage9 (h : Heap) (inputDets : List Detection) (W H : ℚ)
    (sA outA : ℕ) : Heap × ℕ :=
  let s := h.readSumm sA
  if s.documentType = DocumentType.UNKNOWN then
    let fullDoc := fullFrameDoc W H
    let h1 :=
      match s.primaryBox with
      | none => h.write sA (HObj.summ { s with primaryBox := some fullDoc.box })
      | some _ => h
    let hasNearFullDoc := inputDets.any (fun d =>
      decide ((d.label = "Document" ∨ d.label = "Screenshot") ∧
        19/20 < iou d.box fullDoc.box))
    let next2 :=
      if ¬hasNearFullDoc then
        let al := h1.alloc (HObj.det fullDoc)
        let al2 := al.1.alloc (HObj.arr (al.2 :: al.1.readArr outA))
        (al2.1, al2.2)
      else (h1, outA)
    let h2 := next2.1
    let s2 := h2.readSumm sA
    (h2.write sA (HObj.summ { s2 with
        quality := some { (s2.quality.getD {}) with isPartialFlag := some false } }),
      next2.2)
  else (h, outA)

/-- Heap-level stage 11 (`upsertPrimaryDetection`): at most one fresh
synthetic detection pushed onto the working array. -/
def refineHeapUpsert (h : Heap) (sA outA : ℕ) : Heap :=
  let s := h.readSumm sA
  match s.primaryBox, wantedLabelOf s.documentType with
  | some pb, some lbl =>
    let dets := (h.readArr outA).map h.readDet
    if 9/10 ≤ bestIouFor dets lbl pb then h
    else h.pushNewDet outA (synthPrimaryDet lbl s.confidence pb)
  | _, _ => h

/-- `let summary = copy(input.summary)` followed by stage 2: allocate the
fresh deep copy, then the conditional retype mutates that copy.  Returns the
heap and the copy's address. -/
def refineHeapCopyAndRetype (h0 : Heap) (inputSummary : Summary)
    (mp : MainPick) (cfg : FullRefineConfig) : Heap × ℕ :=
  let al := h0.alloc (HObj.summ inputSummary)
  (if cfg.allowRetype ∧ mp.type ≠ inputSummary.documentType then
      al.1.write al.2 (HObj.summ { inputSummary with
        documentType := mp.type, confidence := some mp.conf })
    else al.1, al.2)

/-- Stage 3 over the heap: adoption, clamping and the partial flag all
mutate the summary copy at `sA`. -/
def refineHeapStage3Write (h : Heap) (W H : ℚ) (tol : Tol)
    (primary : Option Detection) (sA : ℕ) : Heap :=
  h.write sA (HObj.summ (refineStage3Primary W H tol primary (h.readSumm sA)).1)

/-- Stages 7, 8, 9 and the upsert over the heap.  Returns the heap and the
final working-array address. -/
def refineHeapStages7to11 (h : Heap) (dets : List Detection) (W H : ℚ)
    (cfg : FullRefineConfig) (sA outA : ℕ) : Heap × ℕ :=
  let st7 := refineHeapStage7 h cfg sA outA
  let h8 := refineHeapStage8 st7.1 cfg sA st7.2
  let st9 := refineHeapStage9 h8 dets W H sA st7.2
  (refineHeapUpsert st9.1 sA st9.2, st9.2)

/-- The whole refinement pipeline over the heap.  Reads of the input go
through the references; the summary is deep-copied into a fresh cell before
any write (`copy(input.summary)`); the working detection arrays are fresh;
every detection object pushed is a fresh copy or a fresh synthetic object.
The returned `HResult` is the fresh `out` object of stage 10 (diagnostics
strings are immutable primitive values and their assembly is carried by the
value-level pipeline). -/
def refineHeap (h0 : Heap) (r : HResult) (options : RefineOptions) :
    Heap × HResult :=
  let cfg := buildConfig options
  let W := r.meta.width
  let H := r.meta.height
  let detAddrs := h0.readArr r.detArrRef
  let dets := detAddrs.map h0.readDet
  let inputSummary := h0.readSumm r.summaryRef
  let inputVal : AnalysisResult := ⟨r.meta, inputSummary, dets, r.diagnostics⟩
  let mp := (pickMainType inputVal cfg.tol).1
  -- stages "copy", 2 and 3 mutate only the fresh summary copy
  let cr := refineHeapCopyAndRetype h0 inputSummary mp cfg
  let sA := cr.2
  let h3 := refineHeapStage3Write cr.1 W H cfg.tol mp.primary sA
  -- stage 4: `bars`/`rest` are fresh arrays holding references to the
  -- input's detection objects; `outDetections = rest`
  let isBar := fun (a : ℕ) =>
    let d := h3.readDet a
    decide (d.label = "Top status bar" ∨ d.label = "Bottom nav bar")
  let bars := (detAddrs.filter isBar).map h3.readDet
  let al2 := h3.alloc (HObj.arr (detAddrs.filter (fun a => !(isBar a))))
  let h4 := al2.1
  let outA := al2.2
  -- stage 6
  let h6 :=
    if (h4.readSumm sA).documentType = DocumentType.SCREENSHOT then
      refineHeapStage6 h4 dets W H cfg bars sA outA
    else h4
  -- stages 7–9 and the upsert
  let tail := refineHeapStages7to11 h6 dets W H cfg sA outA
  (tail.1, ⟨r.meta, sA, tail.2, r.diagnostics⟩)

/-! ## Frame lemmas: the refiner only allocates and writes fresh cells -/

/-- `h1` extends `h0`: the frontier has not receded and every cell below
`h0`'s frontier is untouched. -/
def Heap.Extends (h0 h1 : Heap) : Prop :=
  h0.next ≤ h1.next ∧ ∀ a, a < h0.next → h1.store a = h0.store a

theorem Heap.extends_self (h : Heap) : h.Extends h :=
  ⟨le_refl _, fun _ _ => rfl⟩

theorem Heap.Extends.trans {h0 h1 h2 : Heap} (e1 : h0.Extends h1)
    (e2 : h1.Extends h2) : h0.Extends h2 :=
  ⟨le_trans e1.1 e2.1, fun a ha => (e2.2 a (lt_of_lt_of_le ha e1.1)).trans (e1.2 a ha)⟩

theorem Heap.Extends.le {h0 h1 : Heap} (e : h0.Extends h1) :
    h0.next ≤ h1.next := e.1

theorem Heap.extends_alloc {h0 h1 : Heap} (e : h0.Extends h1) (v : HObj) :
    h0.Extends (h1.alloc v).1 := by
  refine ⟨le_trans e.1 (Nat.le_succ _), fun a ha => ?_⟩
  show (if a = h1.next then some v else h1.store a) = h0.store a
  rw [if_neg (ne_of_lt (lt_of_lt_of_le ha e.1)), e.2 a ha]

theorem Heap.extends_write {h0 h1 : Heap} (e : h0.Extends h1) {a : ℕ}
    (ha : h0.next ≤ a) (v : HObj) : h0.Extends (h1.write a v) := by
  refine ⟨e.1, fun b hb => ?_⟩
  show (if b = a then some v else h1.store b) = h0.store b
  rw [if_neg (ne_of_lt (lt_of_lt_of_le hb ha)), e.2 b hb]

theorem Heap.extends_pushNewDet {h0 h1 : Heap} (e : h0.Extends h1) {outA : ℕ}
    (ha : h0.next ≤ outA) (d : Detection) : h0.Extends (h1.pushNewDet outA d) := by
  unfold Heap.pushNewDet
  exact Heap.extends_write (Heap.extends_alloc e _) ha _

theorem extends_refineHeapStage6Keep {h0 h : Heap} (e : h0.Extends h)
    {sA outA : ℕ} (hsA : h0.next ≤ sA) (houtA : h0.next ≤ outA)
    {sKeep : Summary} {topOk botOk : Option Detection} :
    h0.Extends (refineHeapStage6Keep h sA outA sKeep topOk botOk) := by
  unfold refineHeapStage6Keep
  have e1 : h0.Extends (h.write sA (HObj.summ sKeep)) :=
    Heap.extends_write e hsA _
  cases topOk with
  | none =>
    cases botOk with
    | none => exact e1
    | some d => exact Heap.extends_pushNewDet e1 houtA d
  | some dT =>
    have e2 := Heap.extends_pushNewDet e1 houtA dT
    cases botOk with
    | none => exact e2
    | some d => exact Heap.extends_pushNewDet e2 houtA d

theorem extends_refineHeapStage6 {h0 h : Heap} (e : h0.Extends h)
    {inputDets : List Detection} {W H : ℚ} {cfg : FullRefineConfig}
    {bars : List Detection} {sA outA : ℕ} (hsA : h0.next ≤ sA)
    (houtA : h0.next ≤ outA) :
    h0.Extends (refineHeapStage6 h inputDets W H cfg bars sA outA) := by
  unfold refineHeapStage6
  dsimp only
  repeat' split
  all_goals first
    | exact Heap.extends_write e hsA _
    | exact extends_refineHeapStage6Keep e hsA houtA

theorem extends_refineHeapStage7 {h0 h : Heap} (e : h0.Extends h)
    {cfg : FullRefineConfig} {sA outA : ℕ} (hsA : h0.next ≤ sA)
    (houtA : h0.next ≤ outA) :
    h0.Extends (refineHeapStage7 h cfg sA outA).1 ∧
      h0.next ≤ (refineHeapStage7 h cfg sA outA).2 := by
  unfold refineHeapStage7
  dsimp only
  repeat' split
  all_goals first
    | exact ⟨e, houtA⟩
    | exact ⟨Heap.extends_write (Heap.extends_alloc e _) hsA _, e.1⟩
    | exact ⟨Heap.extends_alloc e _, e.1⟩

theorem extends_refineHeapStage8 {h0 h : Heap} (e : h0.Extends h)
    {cfg : FullRefineConfig} {sA : ℕ} {outA : ℕ} (hsA : h0.next ≤ sA) :
    h0.Extends (refineHeapStage8 h cfg sA outA) := by
  unfold refineHeapStage8
  dsimp only
  repeat' split
  all_goals first
    | exact e
    | exact Heap.extends_write e hsA _

theorem extends_refineHeapStage9 {h0 h : Heap} (e : h0.Extends h)
    {inputDets : List Detection} {W H : ℚ} {sA outA : ℕ}
    (hsA : h0.next ≤ sA) (houtA : h0.next ≤ outA) :
    h0.Extends (refineHeapStage9 h inputDets W H sA outA).1 ∧
      h0.next ≤ (refineHeapStage9 h inputDets W H sA outA).2 := by
  unfold refineHeapStage9
  dsimp only
  repeat' split
  all_goals first
    | exact ⟨e, houtA⟩
    | exact ⟨Heap.extends_write (Heap.extends_write e hsA _) hsA _, houtA⟩
    | exact ⟨Heap.extends_write e hsA _, houtA⟩
    | exact ⟨Heap.extends_write
        (Heap.extends_alloc (Heap.extends_alloc (Heap.extends_write e hsA _) _) _)
        hsA _, le_trans e.1 (Nat.le_succ _)⟩
    | exact ⟨Heap.extends_write
        (Heap.extends_alloc (Heap.extends_alloc e _) _) hsA _,
        le_trans e.1 (Nat.le_succ _)⟩

theorem extends_refineHeapUpsert {h0 h : Heap} (e : h0.Extends h)
    {sA outA : ℕ} (_hsA : h0.next ≤ sA) (houtA : h0.next ≤ outA) :
    h0.Extends (refineHeapUpsert h sA outA) := by
  unfold refineHeapUpsert
  dsimp only
  repeat' split
  all_goals first
    | exact e
    | exact Heap.extends_pushNewDet e houtA _

theorem extends_refineHeapCopyAndRetype {h0 : Heap} {inputSummary : Summary}
    {mp : MainPick} {cfg : FullRefineConfig} :
    h0.Extends (refineHeapCopyAndRetype h0 inputSummary mp cfg).1 := by
  unfold refineHeapCopyAndRetype
  dsimp only
  split
  · exact Heap.extends_write (Heap.extends_alloc (Heap.extends_self h0) _)
      (le_refl _) _
  · exact Heap.extends_alloc (Heap.extends_self h0) _

theorem extends_refineHeapStage3Write {h0 h : Heap} (e : h0.Extends h)
    {W H : ℚ} {tol : Tol} {primary : Option Detection} {sA : ℕ}
    (hsA : h0.next ≤ sA) :
    h0.Extends (refineHeapStage3Write h W H tol primary sA) :=
  Heap.extends_write e hsA _

theorem extends_refineHeapStages7to11 {h0 h : Heap} (e : h0.Extends h)
    {dets : List Detection} {W H : ℚ} {cfg : FullRefineConfig} {sA outA : ℕ}
    (hsA : h0.next ≤ sA) (houtA : h0.next ≤ outA) :
    h0.Extends (refineHeapStages7to11 h dets W H cfg sA outA).1 :=
  extends_refineHeapUpsert
    (extends_refineHeapStage9 (extends_refineHeapStage8
        (extends_refineHeapStage7 e hsA houtA).1 hsA) hsA
      (extends_refineHeapStage7 e hsA houtA).2).1
    hsA
    (extends_refineHeapStage9 (extends_refineHeapStage8
        (extends_refineHeapStage7 e hsA houtA).1 hsA) hsA
      (extends_refineHeapStage7 e hsA houtA).2).2

/-- The whole heap-level refinement pipeline never touches a cell that
existed before the call: it only allocates fresh cells and writes cells it
allocated itself. -/
theorem extends_refineHeap (h : Heap) (r : HResult) (options : RefineOptions) :
    h.Extends (refineHeap h r options).1 := by
  refine extends_refineHeapStages7to11 ?_ ?_ ?_
  · split
    · refine extends_refineHeapStage6 ?_ ?_ ?_
      · refine Heap.extends_alloc ?_ _
        refine extends_refineHeapStage3Write ?_ ?_
        · exact extends_refineHeapCopyAndRetype
        · exact Nat.le_refl _
      · exact Nat.le_refl _
      · refine Heap.Extends.le ?_
        refine extends_refineHeapStage3Write ?_ ?_
        · exact extends_refineHeapCopyAndRetype
        · exact Nat.le_refl _
    · refine Heap.extends_alloc ?_ _
      refine extends_refineHeapStage3Write ?_ ?_
      · exact extends_refineHeapCopyAndRetype
      · exact Nat.le_refl _
  · exact Nat.le_refl _
  · refine Heap.Extends.le ?_
    refine extends_refineHeapStage3Write ?_ ?_
    · exact extends_refineHeapCopyAndRetype
    · exact Nat.le_refl _

/-- C6: `refineDocumentAnalysis` never mutates its input.  For any heap in
which the input's summary object, detections array and detection objects are
live, running the pipeline leaves all those cells exactly as they were: every
modification happens on fresh copies reachable only from the returned
value. -/
theorem refine_input_never_mutated (h : Heap) (r : HResult)
    (options : RefineOptions) (hWF : h.WF)
    (hs : (h.store r.summaryRef).isSome = true)
    (hd : (h.store r.detArrRef).isSome = true)
    (hdets : ∀ a ∈ h.readArr r.detArrRef, (h.store a).isSome = true) :
    (refineHeap h r options).1.store r.summaryRef = h.store r.summaryRef ∧
    (refineHeap h r options).1.store r.detArrRef = h.store r.detArrRef ∧
    ∀ a ∈ h.readArr r.detArrRef,
      (refineHeap h r options).1.store a = h.store a := by
  have e := extends_refineHeap h r options
  have hlt : ∀ a, (h.store a).isSome = true → a < h.next := by
    intro a hsome
    by_contra hge
    rw [hWF a (le_of_not_lt hge)] at hsome
    simp at hsome
  exact ⟨e.2 _ (hlt _ hs), e.2 _ (hlt _ hd),
    fun a ha => e.2 a (hlt a (hdets a ha))⟩

/-- A two-cell heap holding an input result: a summary object at address 0
and an empty detections array at address 1. -/
def c6heap : Heap :=
  ⟨fun a =>
    if a = 0 then some (HObj.summ ⟨DocumentType.UNKNOWN, none, none, none⟩)
    else if a = 1 then some (HObj.arr []) else none, 2⟩

/-- The input references for the witness heap. -/
def c6res : HResult := ⟨⟨800, 600, 4/3⟩, 0, 1, []⟩

theorem refine_input_never_mutated_witness :
    (refineHeap c6heap c6res {}).1.store c6res.summaryRef
        = c6heap.store c6res.summaryRef ∧
      (refineHeap c6heap c6res {}).1.store c6res.detArrRef
        = c6heap.store c6res.detArrRef ∧
      ∀ a ∈ c6heap.readArr c6res.detArrRef,
        (refineHeap c6heap c6res {}).1.store a = c6heap.store a :=
  refine_input_never_mutated c6heap c6res {}
    (by
      intro a ha
      have ha2 : 2 ≤ a := ha
      show (if a = 0 then _ else if a = 1 then _ else none) = none
      rw [if_neg (by omega), if_neg (by omega)])
    (by decide) (by decide)
    (by intro a ha; simp [Heap.readArr, c6heap, c6res] at ha)

/-! ## Claim theorems -/

/-- C7: decoding the inference output raises the shape error if and only if
the output tensor's dimensions match neither expected layout
`[1, 4+numClasses, N]` nor `[1, N, 4+numClasses]`; when either layout
matches, parsing proceeds without a shape error. -/
theorem parse_shape_mismatch_iff (data : ℕ → ℚ) (dims : List ℕ)
    (numClasses : ℕ) :
    (∃ e, parseYoloOnnxOutputCorrect data dims numClasses = Except.error e) ↔
      ¬(layoutChannelFirst dims numClasses ∨ layoutChannelLast dims numClasses) := by
  unfold parseYoloOnnxOutputCorrect
  by_cases h1 : layoutChannelFirst dims numClasses
  · rw [if_pos h1]
    simp [h1]
  · rw [if_neg h1]
    by_cases h2 : layoutChannelLast dims numClasses
    · rw [if_pos h2]
      simp [h1, h2]
    · rw [if_neg h2]
      simp [h1, h2]

/-- C10: option values that are falsy in JavaScript (`0` for the thresholds
and the input size) silently fall back to the built-in defaults; an
explicitly supplied empty `classNames` array leaves the class list empty, so
the `classes.txt` fallback runs exactly as if the option were absent, and
construction fails when that fallback also yields no classes. -/
theorem yolo_constructor_falsy_defaults (opts : DetectorOptions)
    (classesTxt : Option (List String)) :
    (∀ st, yoloConstructor opts classesTxt = Except.ok st →
      (opts.inputSize = some 0 → st.inputSize = 800) ∧
      (opts.confidenceThreshold = some 0 → st.confidenceThreshold = 1/10) ∧
      (opts.iouThreshold = some 0 → st.iouThreshold = 9/20)) ∧
    (opts.classNames = some [] →
      yoloConstructor opts classesTxt
        = yoloConstructor { opts with classNames := none } classesTxt) ∧
    (opts.classNames = some [] → classesFromTxt classesTxt = [] →
      yoloConstructor opts classesTxt
        = Except.error "ConfigurationError: empty class list") := by
  refine ⟨?_, ?_, ?_⟩
  · intro st hok
    unfold yoloConstructor at hok
    dsimp only at hok
    split at hok
    all_goals try split at hok
    all_goals first
      | (injection hok with hst
         subst hst
         exact ⟨fun hz => by simp [jsOrNum, hz],
           fun hz => by simp [jsOrNum, hz],
           fun hz => by simp [jsOrNum, hz]⟩)
      | exact absurd hok (by simp)
  · intro hcn
    unfold yoloConstructor
    rw [hcn]
    rfl
  · intro hcn henv
    simp [yoloConstructor, jsOrArr, hcn, henv]

/-- A concrete options object with all-zero numeric options and an empty
class list, plus a `classes.txt` with blanks. -/
def c10opts : DetectorOptions :=
  { inputSize := some 0, confidenceThreshold := some 0, iouThreshold := some 0,
    classNames := some [] }

theorem yolo_constructor_falsy_defaults_witness :
    (yoloConstructor c10opts (some ["Document", "", " Receipt "])
        = Except.ok ⟨"./models/yolo/800-50/best.onnx", 800, 1/10, 9/20,
            ["Document", "Receipt"]⟩) ∧
      (⟨"./models/yolo/800-50/best.onnx", 800, 1/10, 9/20,
          ["Document", "Receipt"]⟩ : DetectorState).inputSize = 800 ∧
      (⟨"./models/yolo/800-50/best.onnx", 800, 1/10, 9/20,
          ["Document", "Receipt"]⟩ : DetectorState).confidenceThreshold = 1/10 ∧
      yoloConstructor c10opts (some [" ", ""])
        = Except.error "ConfigurationError: empty class list" := by
  have h := yolo_constructor_falsy_defaults c10opts
    (some ["Document", "", " Receipt "])
  have hok : yoloConstructor c10opts (some ["Document", "", " Receipt "])
      = Except.ok ⟨"./models/yolo/800-50/best.onnx", 800, 1/10, 9/20,
          ["Document", "Receipt"]⟩ := by rfl
  have herr := (yolo_constructor_falsy_defaults c10opts (some [" ", ""])).2.2
    rfl (by rfl)
  exact ⟨hok, (h.1 _ hok).1 rfl, (h.1 _ hok).2.1 rfl, herr⟩

/-- C8 (amended): IoU is `0` whenever the computed union area is zero, and no
exception is possible anywhere (every embedded operation is total); the
stage-3 primary coverage is guarded and returns `0` for a non-positive frame
area, but the Screenshot-score coverage is an unguarded division that yields
NaN (zero-area container) or +Infinity (positive-area container) on a
zero-size frame rather than `0`. -/
theorem degenerate_geometry_neutral_values :
    (∀ a b : Box, area a + area b - area (intersectBox a b) = 0 →
      iou a b = 0) ∧
    (∀ primA frameA : ℚ, frameA ≤ 0 → primaryCoverFrac primA frameA = 0) ∧
    (∀ (container : Box) (topOk botOk : Option Detection)
        (frameW frameH baseConf : ℚ) (tol : Tol), frameW * frameH = 0 →
      (scoreScreenshot container topOk botOk frameW frameH baseConf tol).cover
        = if area container = 0 then JNum.nan else JNum.posInf) := by
  refine ⟨?_, ?_, ?_⟩
  · intro a b h
    unfold iou
    dsimp only
    rw [h]
    simp
  · intro primA frameA h
    unfold primaryCoverFrac
    rw [if_neg (not_lt.mpr h)]
  · intro container topOk botOk frameW frameH baseConf tol h
    show jdiv (area container) (frameW * frameH) = _
    unfold jdiv
    rw [if_pos h]
    by_cases hc : area container = 0
    · rw [if_pos hc, if_pos hc]
    · rw [if_neg hc, if_neg hc, if_pos ?_]
      have hnn : 0 ≤ area container :=
        mul_nonneg (le_max_left 0 _) (le_max_left 0 _)
      exact lt_of_le_of_ne hnn (Ne.symm hc)

theorem degenerate_geometry_neutral_values_witness :
    iou ⟨3, 3, 3, 3⟩ ⟨3, 3, 3, 3⟩ = 0 ∧
      primaryCoverFrac 100 0 = 0 ∧
      (scoreScreenshot ⟨0, 0, 10, 10⟩ none none 0 0 (1/2) DEFAULT_TOL).cover
        = JNum.posInf := by
  refine ⟨?_, ?_, ?_⟩
  · exact degenerate_geometry_neutral_values.1 ⟨3, 3, 3, 3⟩ ⟨3, 3, 3, 3⟩
      (by decide)
  · exact degenerate_geometry_neutral_values.2.1 100 0 (by decide)
  · have h := degenerate_geometry_neutral_values.2.2 ⟨0, 0, 10, 10⟩ none none
      0 0 (1/2) DEFAULT_TOL (by decide)
    rw [h, if_neg (by decide)]

/-- C8 counterexample: on a zero-size frame the Screenshot coverage fraction
does not evaluate to `0` — a positive-area container yields +Infinity, whose
`>= 0.80` comparison succeeds and grants the coverage bonus (observable in
the refined confidence `0.5 + 0.05`); the claim that every coverage fraction
during refinement evaluates to `0` on zero-size frames is therefore false. -/
theorem degenerate_geometry_zero_frame_counterexample :
    (scoreScreenshot ⟨0, 0, 10, 10⟩ none none 0 0 (1/2) DEFAULT_TOL).cover
        = JNum.posInf ∧
      (scoreScreenshot ⟨0, 0, 10, 10⟩ none none 0 0 (1/2) DEFAULT_TOL).cover
        ≠ JNum.fin 0 ∧
      (scoreScreenshot ⟨0, 0, 10, 10⟩ none none 0 0 (1/2) DEFAULT_TOL).score
        = 1/2 + 1/20 ∧
      (refineDocumentAnalysis
          { meta := ⟨0, 0, 1⟩,
            summary := { documentType := DocumentType.SCREENSHOT,
                         confidence := some (1/2) },
            detections := [⟨"Screenshot", 7/10, ⟨0, 0, 10, 10⟩, none⟩] }
          {}).summary.confidence = some (11/20) := by
  refine ⟨by decide, by decide, by decide, by decide⟩

/-! ## The suppression loop's unfolding equations (the definition uses
well-founded recursion on the pool length) -/

theorem nmsLoop_nil (τ : ℚ) : nmsLoop τ [] = [] := by
  rw [nmsLoop]

theorem nmsLoop_cons (τ : ℚ) (c : Cand) (pool : List Cand) :
    nmsLoop τ (c :: pool) = c :: nmsLoop τ (pool.filter (fun b =>
      decide (b.classId ≠ c.classId ∨ calculateIoU c b < τ))) := by
  rw [nmsLoop]

/-- `Math.round` is monotone. -/
theorem jsRound_mono {a b : ℚ} (h : a ≤ b) : jsRound a ≤ jsRound b :=
  Int.floor_le_floor (by linarith)

/-- C4 (amended): the remapper rounds the remapped corners to integers and
clamps `x1, y1` from below at 0 and `x2, y2` from above at the image
width/height — not every coordinate into `[0, width] × [0, height]` — so each
output coordinate is an integer with `0 ≤ x1`, `0 ≤ y1`, `x2 ≤ width`,
`y2 ≤ height`; the ordering `x1 ≤ x2` and `y1 ≤ y2` (and hence full
in-boundedness) holds when the candidate has nonnegative size, the scale is
positive, and the rounded remapped box is not strictly outside the frame. -/
theorem remap_integer_bounds :
    (∀ (scale padX padY : ℚ) (origW origH : ℤ) (c : Cand),
      (∃ i : ℤ, (remapBox scale padX padY origW origH c).x1 = (i : ℚ)) ∧
      (∃ i : ℤ, (remapBox scale padX padY origW origH c).y1 = (i : ℚ)) ∧
      (∃ i : ℤ, (remapBox scale padX padY origW origH c).x2 = (i : ℚ)) ∧
      (∃ i : ℤ, (remapBox scale padX padY origW origH c).y2 = (i : ℚ)) ∧
      0 ≤ (remapBox scale padX padY origW origH c).x1 ∧
      0 ≤ (remapBox scale padX padY origW origH c).y1 ∧
      (remapBox scale padX padY origW origH c).x2 ≤ (origW : ℚ) ∧
      (remapBox scale padX padY origW origH c).y2 ≤ (origH : ℚ)) ∧
    (∀ (scale padX padY : ℚ) (origW origH : ℤ) (c : Cand),
      0 < scale → 0 ≤ c.w → 0 ≤ c.h → 0 ≤ origW → 0 ≤ origH →
      0 ≤ jsRound ((c.x + c.w / 2 - padX) / scale) →
      jsRound ((c.x - c.w / 2 - padX) / scale) ≤ origW →
      0 ≤ jsRound ((c.y + c.h / 2 - padY) / scale) →
      jsRound ((c.y - c.h / 2 - padY) / scale) ≤ origH →
      (remapBox scale padX padY origW origH c).x1
          ≤ (remapBox scale padX padY origW origH c).x2 ∧
        (remapBox scale padX padY origW origH c).y1
          ≤ (remapBox scale padX padY origW origH c).y2) := by
  constructor
  · intro scale padX padY origW origH c
    unfold remapBox
    dsimp only
    refine ⟨⟨_, rfl⟩, ⟨_, rfl⟩, ⟨_, rfl⟩, ⟨_, rfl⟩, ?_, ?_, ?_, ?_⟩
    · exact_mod_cast Int.cast_nonneg.mpr (le_max_left 0 _)
    · exact_mod_cast Int.cast_nonneg.mpr (le_max_left 0 _)
    · exact_mod_cast Int.cast_le.mpr (min_le_left _ _)
    · exact_mod_cast Int.cast_le.mpr (min_le_left _ _)
  · intro scale padX padY origW origH c hscale hw hh hW hH hx2 hx1 hy2 hy1
    have hxr : jsRound ((c.x - c.w / 2 - padX) / scale)
        ≤ jsRound ((c.x + c.w / 2 - padX) / scale) :=
      jsRound_mono ((div_le_div_iff_of_pos_right hscale).mpr (by linarith))
    have hyr : jsRound ((c.y - c.h / 2 - padY) / scale)
        ≤ jsRound ((c.y + c.h / 2 - padY) / scale) :=
      jsRound_mono ((div_le_div_iff_of_pos_right hscale).mpr (by linarith))
    unfold remapBox
    dsimp only
    constructor
    · exact_mod_cast Int.cast_le.mpr
        (le_min (max_le hW hx1) (max_le hx2 hxr))
    · exact_mod_cast Int.cast_le.mpr
        (le_min (max_le hH hy1) (max_le hy2 hyr))

theorem remap_integer_bounds_witness :
    (0 : ℚ) < 1 ∧ (0 : ℚ) ≤ 10 ∧ (0 : ℤ) ≤ 100 ∧
      (remapBox 1 0 0 100 100 ⟨50, 50, 10, 10, 0, 1⟩).x1
          ≤ (remapBox 1 0 0 100 100 ⟨50, 50, 10, 10, 0, 1⟩).x2 ∧
        (remapBox 1 0 0 100 100 ⟨50, 50, 10, 10, 0, 1⟩).y1
          ≤ (remapBox 1 0 0 100 100 ⟨50, 50, 10, 10, 0, 1⟩).y2 := by
  refine ⟨by norm_num, by norm_num, by norm_num, ?_⟩
  exact remap_integer_bounds.2 1 0 0 100 100 ⟨50, 50, 10, 10, 0, 1⟩
    (by norm_num) (by norm_num) (by norm_num) (by norm_num) (by norm_num)
    (by decide) (by decide) (by decide) (by decide)

/-- C4 counterexample: a candidate that survives suppression (it is alone in
its class) but lies entirely right of the frame is remapped to
`x1 = 295 > width = 100 = x2`: the coordinates are neither all in
`[0, width]` nor ordered, contradicting the claim that every coordinate is
clamped into the frame for arbitrary model-space positions. -/
theorem remap_out_of_frame_counterexample :
    applyNMS (9/20) [⟨300, 50, 10, 10, 0, 1⟩] = [⟨300, 50, 10, 10, 0, 1⟩] ∧
      postprocessCands ["doc"] (1/10) (9/20) 1 0 0 100 100
          [⟨300, 50, 10, 10, 0, 1⟩]
        = [⟨"doc", 1, ⟨295, 45, 100, 55⟩, none⟩] ∧
      ¬((⟨295, 45, 100, 55⟩ : Box).x1 ≤ (100 : ℚ)) ∧
      ¬((⟨295, 45, 100, 55⟩ : Box).x1 ≤ (⟨295, 45, 100, 55⟩ : Box).x2) := by
  have hnms : applyNMS (9/20) [(⟨300, 50, 10, 10, 0, 1⟩ : Cand)]
      = [⟨300, 50, 10, 10, 0, 1⟩] := by
    show nmsLoop _ (sortDescBy _ _) = _
    rw [show sortDescBy Cand.confidence [(⟨300, 50, 10, 10, 0, 1⟩ : Cand)]
        = [⟨300, 50, 10, 10, 0, 1⟩] from rfl, nmsLoop_cons]
    simp [nmsLoop_nil]
  refine ⟨hnms, ?_, by decide, by decide⟩
  show (applyNMS _ _).map _ = _
  rw [show List.filter (fun p => decide ((1:ℚ)/10 < p.confidence))
      [(⟨300, 50, 10, 10, 0, 1⟩ : Cand)] = [⟨300, 50, 10, 10, 0, 1⟩] by decide]
    at *
  rw [hnms]
  show [remapDetection ["doc"] 1 0 0 100 100 ⟨300, 50, 10, 10, 0, 1⟩] = _
  unfold remapDetection remapBox labelOf jsRound
  norm_num

/-! ## The primary-detection upsert invariant (C1) -/

theorem upsert_summary_eq (out : AnalysisResult) (wl : Option String) :
    (upsertPrimaryDetection out wl).1.summary = out.summary := by
  unfold upsertPrimaryDetection
  repeat' split
  all_goals rfl

theorem refine_summary_detections (input : AnalysisResult)
    (options : RefineOptions) :
    (refineDocumentAnalysis input options).summary
        = (upsertPrimaryDetection (refinePre input options)
            (wantedLabelOf (refinePre input options).summary.documentType)).1.summary ∧
      (refineDocumentAnalysis input options).detections
        = (upsertPrimaryDetection (refinePre input options)
            (wantedLabelOf (refinePre input options).summary.documentType)).1.detections := by
  unfold refineDocumentAnalysis
  dsimp only
  split
  · exact ⟨rfl, rfl⟩
  · exact ⟨rfl, rfl⟩

theorem intersectBox_self (b : Box) : intersectBox b b = b := by
  unfold intersectBox
  cases b
  simp

theorem iou_self {b : Box} (h : 0 < area b) : iou b b = 1 := by
  unfold iou
  dsimp only
  rw [intersectBox_self, show area b + area b - area b = area b by ring,
    if_pos h]
  exact div_self (ne_of_gt h)

/-- The running-maximum fold of `upsertPrimaryDetection` is either untouched
(still the initial accumulator) or attained by some matching detection. -/
theorem bestIouFold_cases (lbl : String) (pb : Box) :
    ∀ (l : List Detection) (acc : ℚ),
      l.foldl (fun acc d =>
        if d.label = lbl then
          (if acc < iou d.box pb then iou d.box pb else acc)
        else acc) acc = acc ∨
      ∃ d ∈ l, d.label = lbl ∧ iou d.box pb
        = l.foldl (fun acc d =>
            if d.label = lbl then
              (if acc < iou d.box pb then iou d.box pb else acc)
            else acc) acc
  | [], acc => Or.inl rfl
  | d :: l, acc => by
    rw [List.foldl_cons]
    by_cases h1 : d.label = lbl
    · by_cases h2 : acc < iou d.box pb
      · rw [if_pos h1, if_pos h2]
        rcases bestIouFold_cases lbl pb l (iou d.box pb) with h | ⟨d', hm, hl, hi⟩
        · right
          exact ⟨d, List.mem_cons_self d l, h1, h.symm⟩
        · right
          exact ⟨d', List.mem_cons_of_mem d hm, hl, hi⟩
      · rw [if_pos h1, if_neg h2]
        rcases bestIouFold_cases lbl pb l acc with h | ⟨d', hm, hl, hi⟩
        · exact Or.inl h
        · exact Or.inr ⟨d', List.mem_cons_of_mem d hm, hl, hi⟩
    · rw [if_neg h1]
      rcases bestIouFold_cases lbl pb l acc with h | ⟨d', hm, hl, hi⟩
      · exact Or.inl h
      · exact Or.inr ⟨d', List.mem_cons_of_mem d hm, hl, hi⟩

theorem bestIouFor_cases (dets : List Detection) (lbl : String) (pb : Box) :
    bestIouFor dets lbl pb = 0 ∨
      ∃ d ∈ dets, d.label = lbl ∧ iou d.box pb = bestIouFor dets lbl pb :=
  bestIouFold_cases lbl pb dets 0

/-- After the upsert, a detection of the wanted label with IoU ≥ 0.90 against
the (positive-area) primary box is always present. -/
theorem upsert_contains_primary (out : AnalysisResult) (pb : Box) (lbl : String)
    (hpb : out.summary.primaryBox = some pb) (hpos : 0 < area pb) :
    ∃ d ∈ (upsertPrimaryDetection out (some lbl)).1.detections,
      d.label = lbl ∧ 9/10 ≤ iou d.box pb := by
  unfold upsertPrimaryDetection
  rw [hpb]
  dsimp only
  split
  · rename_i hbest
    rcases bestIouFor_cases out.detections lbl pb with h0 | ⟨d, hmem, hlbl, hiou⟩
    · rw [h0] at hbest
      norm_num at hbest
    · exact ⟨d, hmem, hlbl, by rw [hiou]; exact hbest⟩
  · refine ⟨synthPrimaryDet lbl out.summary.confidence pb, ?_, rfl, ?_⟩
    · exact List.mem_append_right _ (List.mem_singleton.mpr rfl)
    · rw [show (synthPrimaryDet lbl out.summary.confidence pb).box = pb from rfl,
        iou_self hpos]
      norm_num

/-- C1 (amended): whenever the refinement output has a primary box of
positive area and its final `documentType` has a corresponding class label
(Screenshot, Document or Receipt — for Unknown the upsert is skipped), the
final detections list contains a detection of that label with IoU ≥ 0.90
against the primary box; and whenever the earlier stages left no such
detection, the upsert appends exactly the synthetic detection (score = final
confidence or 0, box a copy of the primary box, `meta.synthetic = true`,
`meta.source = refine`). -/
theorem refine_primary_detection_invariant :
    (∀ (input : AnalysisResult) (options : RefineOptions) (pb : Box)
        (lbl : String),
      (refineDocumentAnalysis input options).summary.primaryBox = some pb →
      wantedLabelOf (refineDocumentAnalysis input options).summary.documentType
        = some lbl →
      0 < area pb →
      ∃ d ∈ (refineDocumentAnalysis input options).detections,
        d.label = lbl ∧ 9/10 ≤ iou d.box pb) ∧
    (∀ (out : AnalysisResult) (pb : Box) (lbl : String),
      out.summary.primaryBox = some pb →
      bestIouFor out.detections lbl pb < 9/10 →
      (upsertPrimaryDetection out (some lbl)).1.detections
        = out.detections ++ [synthPrimaryDet lbl out.summary.confidence pb]) := by
  constructor
  · intro input options pb lbl hpb hlbl hpos
    obtain ⟨hs, hd⟩ := refine_summary_detections input options
    rw [hs, upsert_summary_eq] at hpb hlbl
    rw [hd, hlbl]
    exact upsert_contains_primary _ pb lbl hpb hpos
  · intro out pb lbl hpb hlt
    unfold upsertPrimaryDetection
    rw [hpb]
    dsimp only
    rw [if_neg (not_le.mpr hlt)]

/-- A concrete input whose refinement keeps a positive-area primary box. -/
def c1winput : AnalysisResult :=
  { meta := ⟨100, 100, 1⟩,
    summary := { documentType := DocumentType.DOCUMENT, confidence := some (1/2),
                 primaryBox := some ⟨0, 0, 10, 10⟩ },
    detections := [] }

theorem refine_primary_detection_invariant_witness :
    ((refineDocumentAnalysis c1winput {}).summary.primaryBox
        = some ⟨0, 0, 10, 10⟩) ∧
      (wantedLabelOf (refineDocumentAnalysis c1winput {}).summary.documentType
        = some "Document") ∧
      (0 : ℚ) < area ⟨0, 0, 10, 10⟩ ∧
      ∃ d ∈ (refineDocumentAnalysis c1winput {}).detections,
        d.label = "Document" ∧ 9/10 ≤ iou d.box ⟨0, 0, 10, 10⟩ := by
  refine ⟨by decide, by decide, by decide, ?_⟩
  exact refine_primary_detection_invariant.1 c1winput {} ⟨0, 0, 10, 10⟩
    "Document" (by decide) (by decide) (by decide)

/-- A concrete input carrying a degenerate (zero-area) primary box that
survives to the output. -/
def c1cexinput : AnalysisResult :=
  { meta := ⟨800, 600, 4/3⟩,
    summary := { documentType := DocumentType.DOCUMENT, confidence := some (1/2),
                 primaryBox := some ⟨5, 5, 5, 5⟩ },
    detections := [] }

/-- C1 counterexample: with a zero-area primary box the upsert appends its
synthetic detection, but that detection's IoU with the primary box is 0 (the
union area is zero), so no detection reaches IoU ≥ 0.90 and the claimed
invariant fails as stated. -/
theorem refine_primary_detection_degenerate_counterexample :
    (refineDocumentAnalysis c1cexinput {}).summary.primaryBox
        = some ⟨5, 5, 5, 5⟩ ∧
      wantedLabelOf (refineDocumentAnalysis c1cexinput {}).summary.documentType
        = some "Document" ∧
      (refineDocumentAnalysis c1cexinput {}).detections
        = [synthPrimaryDet "Document" (some (1/2)) ⟨5, 5, 5, 5⟩] ∧
      ∀ d ∈ (refineDocumentAnalysis c1cexinput {}).detections,
        ¬(d.label = "Document" ∧ 9/10 ≤ iou d.box ⟨5, 5, 5, 5⟩) := by
  refine ⟨by decide, by decide, by decide, by decide⟩

/-! ## The Unknown fallback (C3) -/

theorem upsert_none (out : AnalysisResult) :
    (upsertPrimaryDetection out none).1 = out := by
  unfold upsertPrimaryDetection
  repeat' split
  all_goals first | rfl | simp_all

theorem stage9_type (inputDets : List Detection) (W H : ℚ) (s : Summary)
    (outDets : List Detection) :
    (refineStage9Unknown inputDets W H s outDets).1.documentType
      = s.documentType := by
  unfold refineStage9Unknown
  repeat' split
  all_goals rfl

/-- What stage 9 does when the working type is Unknown: force
`quality.isPartial = false`, default the primary box to the full frame, and
prepend the synthetic full-frame Document unless a raw Document/Screenshot
detection has IoU strictly above 0.95 with the full frame. -/
theorem stage9_unknown_spec (inputDets : List Detection) (W H : ℚ)
    (s : Summary) (outDets : List Detection)
    (h : s.documentType = DocumentType.UNKNOWN) :
    ((refineStage9Unknown inputDets W H s outDets).1.quality.bind
        Quality.isPartialFlag = some false) ∧
      (refineStage9Unknown inputDets W H s outDets).1.primaryBox
        = some (s.primaryBox.getD ⟨0, 0, W, H⟩) ∧
      (if ∃ d ∈ inputDets, (d.label = "Document" ∨ d.label = "Screenshot") ∧
            19/20 < iou d.box (⟨0, 0, W, H⟩ : Box)
       then (refineStage9Unknown inputDets W H s outDets).2.1 = outDets
       else (refineStage9Unknown inputDets W H s outDets).2.1
          = fullFrameDoc W H :: outDets) := by
  unfold refineStage9Unknown
  rw [if_pos h]
  dsimp only
  have hany : (inputDets.any (fun d =>
      decide ((d.label = "Document" ∨ d.label = "Screenshot") ∧
        19/20 < iou d.box (fullFrameDoc W H).box)) = true) ↔
      (∃ d ∈ inputDets, (d.label = "Document" ∨ d.label = "Screenshot") ∧
        19/20 < iou d.box (⟨0, 0, W, H⟩ : Box)) := by
    rw [List.any_eq_true]
    simp only [decide_eq_true_eq]
    rfl
  refine ⟨rfl, ?_, ?_⟩
  · cases hpb : s.primaryBox with
    | none => rfl
    | some pb => exact hpb
  · by_cases hex : ∃ d ∈ inputDets, (d.label = "Document" ∨ d.label = "Screenshot") ∧
        19/20 < iou d.box (⟨0, 0, W, H⟩ : Box)
    · rw [if_pos hex, if_neg (not_not_intro (hany.mpr hex))]
    · rw [if_neg hex, if_pos (fun hc => hex (hany.mp hc))]

/-- The C3 scenario input: zero detections, incoming type Unknown, an
800×600 frame. -/
def c3scenarioInput : AnalysisResult :=
  { meta := ⟨800, 600, 4/3⟩,
    summary := { documentType := DocumentType.UNKNOWN },
    detections := [] }

/-- C3 (amended): whenever the final document type is Unknown, the output's
`quality.isPartial` is forced to `false`, a primary box exists (set to the
full frame when none survived the earlier stages), and the synthetic
full-frame Document detection (score 0, `meta.synthetic = true`,
`meta.source = fallback`) is prepended unless some raw Document or Screenshot
detection has IoU strictly greater than 0.95 (not "at least 0.95") with the
full frame.  Scenario: zero detections, incoming type Unknown, 800×600 frame
→ primary box `{0,0,800,600}`, exactly one synthetic Document detection at
score 0, `quality.isPartial = false`. -/
theorem refine_unknown_fallback :
    (∀ (input : AnalysisResult) (options : RefineOptions),
      (refineDocumentAnalysis input options).summary.documentType
          = DocumentType.UNKNOWN →
      ((refineDocumentAnalysis input options).summary.quality.bind
          Quality.isPartialFlag = some false) ∧
        (refineDocumentAnalysis input options).summary.primaryBox
          = some (((refineCore input (buildConfig options)).1.primaryBox).getD
              ⟨0, 0, input.meta.width, input.meta.height⟩) ∧
        (if ∃ d ∈ input.detections,
              (d.label = "Document" ∨ d.label = "Screenshot") ∧
              19/20 < iou d.box
                (⟨0, 0, input.meta.width, input.meta.height⟩ : Box)
         then (refineDocumentAnalysis input options).detections
            = (refineCore input (buildConfig options)).2.1
         else (refineDocumentAnalysis input options).detections
            = fullFrameDoc input.meta.width input.meta.height
                :: (refineCore input (buildConfig options)).2.1)) ∧
    ((refineDocumentAnalysis c3scenarioInput {}).summary.primaryBox
        = some ⟨0, 0, 800, 600⟩ ∧
      (refineDocumentAnalysis c3scenarioInput {}).detections
        = [fullFrameDoc 800 600] ∧
      (refineDocumentAnalysis c3scenarioInput {}).summary.quality
        = some ⟨some false⟩) := by
  constructor
  · intro input options htype
    obtain ⟨hs, hd⟩ := refine_summary_detections input options
    have htype' : (refinePre input options).summary.documentType
        = DocumentType.UNKNOWN := by
      rw [hs, upsert_summary_eq] at htype
      exact htype
    have hcorety : (refineCore input (buildConfig options)).1.documentType
        = DocumentType.UNKNOWN := by
      have h9 := stage9_type input.detections input.meta.width input.meta.height
        (refineCore input (buildConfig options)).1
        (refineCore input (buildConfig options)).2.1
      exact h9.symm.trans htype'
    have hwl : wantedLabelOf (refinePre input options).summary.documentType
        = none := by
      rw [htype']
      rfl
    have hspec := stage9_unknown_spec input.detections input.meta.width
      input.meta.height (refineCore input (buildConfig options)).1
      (refineCore input (buildConfig options)).2.1 hcorety
    have hsum : (refineDocumentAnalysis input options).summary
        = (refinePre input options).summary := by
      rw [hs, hwl, upsert_none]
    have hdet : (refineDocumentAnalysis input options).detections
        = (refinePre input options).detections := by
      rw [hd, hwl, upsert_none]
    refine ⟨?_, ?_, ?_⟩
    · rw [hsum]
      exact hspec.1
    · rw [hsum]
      exact hspec.2.1
    · split
      · rename_i hex
        rw [hdet]
        have h3 := hspec.2.2
        rw [if_pos hex] at h3
        exact h3
      · rename_i hex
        rw [hdet]
        have h3 := hspec.2.2
        rw [if_neg hex] at h3
        exact h3
  · refine ⟨by decide, by decide, by decide⟩

theorem refine_unknown_fallback_witness :
    ((refineDocumentAnalysis c3scenarioInput {}).summary.documentType
        = DocumentType.UNKNOWN) ∧
      ((refineDocumentAnalysis c3scenarioInput {}).summary.quality.bind
          Quality.isPartialFlag = some false) ∧
      (refineDocumentAnalysis c3scenarioInput {}).summary.primaryBox
        = some (((refineCore c3scenarioInput (buildConfig {})).1.primaryBox).getD
            ⟨0, 0, 800, 600⟩) := by
  have h := refine_unknown_fallback.1 c3scenarioInput {} (by decide)
  exact ⟨by decide, h.1, h.2.1⟩

/-- The C3 counterexample input: a Document detection whose IoU with the
full 800×600 frame is exactly 0.95, incoming type Unknown. -/
def c3cexInput : AnalysisResult :=
  { meta := ⟨800, 600, 4/3⟩,
    summary := { documentType := DocumentType.UNKNOWN },
    detections := [⟨"Document", 1/2, ⟨0, 0, 800, 570⟩, none⟩] }

/-- C3 counterexample: the code guards the prepend with `iou > 0.95`, not
`iou ≥ 0.95`.  With `allowRetype=false` (so the type stays Unknown) and an
existing Document detection at IoU exactly 0.95 with the full frame, the
claim says no synthetic detection is prepended, but the code prepends one:
the output starts with the synthetic full-frame Document and has two
detections. -/
theorem refine_unknown_fallback_counterexample :
    iou (⟨0, 0, 800, 570⟩ : Box) ⟨0, 0, 800, 600⟩ = 19/20 ∧
      (refineDocumentAnalysis c3cexInput { allowRetype := some false }
        ).summary.documentType = DocumentType.UNKNOWN ∧
      (refineDocumentAnalysis c3cexInput { allowRetype := some false }
        ).detections
        = [fullFrameDoc 800 600, ⟨"Document", 1/2, ⟨0, 0, 800, 570⟩, none⟩] := by
  refine ⟨by decide, by decide, by decide⟩

/-! ## The Screenshot-to-alternative switch (C2) -/

theorem altTypeOf_ne_screenshot (a : Detection) :
    altTypeOf a ≠ DocumentType.SCREENSHOT := by
  unfold altTypeOf
  split
  · simp
  · simp

/-- The C2 scenario input: a Screenshot detection covering 40% of a
1000×1000 frame, a Document detection scoring 0.6 fully inside it, and a
Screenshot acceptance score of 0.55 (base confidence 0.55, no bars, no
coverage bonus). -/
def c2scenarioInput : AnalysisResult :=
  { meta := ⟨1000, 1000, 1⟩,
    summary := { documentType := DocumentType.SCREENSHOT,
                 confidence := some (11/20) },
    detections := [⟨"Screenshot", 7/10, ⟨0, 0, 1000, 400⟩, none⟩,
      ⟨"Document", 3/5, ⟨100, 100, 300, 300⟩, none⟩] }

/-- C2: with default tolerances and `allowRetype = true`, the Screenshot
stage switches the working type away from Screenshot if and only if the
container coverage is below `screenshotMinCoverFrac` (0.80), a
Document-or-Receipt alternative exists, and the alternative's score (raw
score + 0.5×IoU with the container) is at least the acceptance score minus
`altCandidateMaxDelta` (0.06); on a switch it adopts the alternative's type,
confidence and box, and appends no bars.  Scenario: the 40%-coverage
Screenshot with an inside Document scoring 0.6 against acceptance score 0.55
refines to `documentType = Document`, `confidence = 0.6`. -/
theorem refine_screenshot_switch_iff :
    (∀ (inputDets bars outDets : List Detection) (W H : ℚ) (s : Summary),
      s.documentType = DocumentType.SCREENSHOT →
      (let cfg : FullRefineConfig := ⟨DEFAULT_TOL, true, true⟩
       let container := screenshotContainerOf inputDets W H
       let topOk := (validatedBar bars container W H BarWhich.top DEFAULT_TOL).1
       let botOk := (validatedBar bars container W H BarWhich.bottom DEFAULT_TOL).1
       let sc := scoreScreenshot container topOk botOk W H
         (screenshotBaseConf s inputDets) DEFAULT_TOL
       ((refineStage6Screenshot inputDets W H cfg bars s outDets).1.documentType
            ≠ DocumentType.SCREENSHOT ↔
          (sc.cover.ltQ (4/5) = true ∧
            ∃ a, bestAltOf inputDets = some a ∧
              sc.score - 3/50 ≤ altScoreOf a container)) ∧
        (∀ a, bestAltOf inputDets = some a →
          sc.cover.ltQ (4/5) = true →
          sc.score - 3/50 ≤ altScoreOf a container →
          (refineStage6Screenshot inputDets W H cfg bars s outDets).1
              = { s with
                  documentType := altTypeOf a,
                  confidence := some a.score,
                  primaryBox := some a.box } ∧
            (refineStage6Screenshot inputDets W H cfg bars s outDets).2.1
              = outDets))) ∧
    ((refineDocumentAnalysis c2scenarioInput {}).summary.documentType
        = DocumentType.DOCUMENT ∧
      (refineDocumentAnalysis c2scenarioInput {}).summary.confidence
        = some (3/5)) := by
  constructor
  · intro inputDets bars outDets W H s hscr
    dsimp only
    constructor
    · unfold refineStage6Screenshot
      dsimp only
      cases halt : bestAltOf inputDets with
      | none =>
        have hk : ((if (bestScreenshotOf inputDets).isNone = true ∨
              (jdiv (area (screenshotContainerOf inputDets W H)) (W * H)).ltQ
                DEFAULT_TOL.screenshotMinCoverFrac = true then
              ({ s with
                  primaryBox := some (⟨0, 0, W, H⟩ : Box),
                  confidence := some (scoreScreenshot
                    (screenshotContainerOf inputDets W H)
                    (validatedBar bars (screenshotContainerOf inputDets W H)
                      W H BarWhich.top DEFAULT_TOL).1
                    (validatedBar bars (screenshotContainerOf inputDets W H)
                      W H BarWhich.bottom DEFAULT_TOL).1 W H
                    (screenshotBaseConf s inputDets) DEFAULT_TOL).score },
                ["primaryBox: forced to full frame for Screenshot"])
            else
              ({ s with
                  primaryBox := some (screenshotContainerOf inputDets W H),
                  confidence := some (scoreScreenshot
                    (screenshotContainerOf inputDets W H)
                    (validatedBar bars (screenshotContainerOf inputDets W H)
                      W H BarWhich.top DEFAULT_TOL).1
                    (validatedBar bars (screenshotContainerOf inputDets W H)
                      W H BarWhich.bottom DEFAULT_TOL).1 W H
                    (screenshotBaseConf s inputDets) DEFAULT_TOL).score },
                ([] : List String))).1).documentType = s.documentType := by
          split
          · rfl
          · rfl
        constructor
        · intro hne
          exact absurd (hk.trans hscr) hne
        · rintro ⟨-, a, ha, -⟩
          exact absurd ha (by simp)
      | some a =>
        dsimp only
        by_cases hcond :
            (scoreScreenshot (screenshotContainerOf inputDets W H)
                (validatedBar bars (screenshotContainerOf inputDets W H) W H
                  BarWhich.top DEFAULT_TOL).1
                (validatedBar bars (screenshotContainerOf inputDets W H) W H
                  BarWhich.bottom DEFAULT_TOL).1 W H
                (screenshotBaseConf s inputDets) DEFAULT_TOL).cover.ltQ (4/5)
              = true ∧
            (scoreScreenshot (screenshotContainerOf inputDets W H)
                (validatedBar bars (screenshotContainerOf inputDets W H) W H
                  BarWhich.top DEFAULT_TOL).1
                (validatedBar bars (screenshotContainerOf inputDets W H) W H
                  BarWhich.bottom DEFAULT_TOL).1 W H
                (screenshotBaseConf s inputDets) DEFAULT_TOL).score - 3/50
              ≤ altScoreOf a (screenshotContainerOf inputDets W H)
        · rw [if_pos (show _ ∧ (true : Bool) = true from ⟨⟨hcond.1, hcond.2⟩, rfl⟩)]
          constructor
          · intro _
            exact ⟨hcond.1, a, rfl, hcond.2⟩
          · intro _
            exact altTypeOf_ne_screenshot a
        · rw [if_neg (fun hc => hcond ⟨hc.1.1, hc.1.2⟩)]
          have hk : ((if (bestScreenshotOf inputDets).isNone = true ∨
                (jdiv (area (screenshotContainerOf inputDets W H)) (W * H)).ltQ
                  DEFAULT_TOL.screenshotMinCoverFrac = true then
                ({ s with
                    primaryBox := some (⟨0, 0, W, H⟩ : Box),
                    confidence := some (scoreScreenshot
                      (screenshotContainerOf inputDets W H)
                      (validatedBar bars (screenshotContainerOf inputDets W H)
                        W H BarWhich.top DEFAULT_TOL).1
                      (validatedBar bars (screenshotContainerOf inputDets W H)
                        W H BarWhich.bottom DEFAULT_TOL).1 W H
                      (screenshotBaseConf s inputDets) DEFAULT_TOL).score },
                  ["primaryBox: forced to full frame for Screenshot"])
              else
                ({ s with
                    primaryBox := some (screenshotContainerOf inputDets W H),
                    confidence := some (scoreScreenshot
                      (screenshotContainerOf inputDets W H)
                      (validatedBar bars (screenshotContainerOf inputDets W H)
                        W H BarWhich.top DEFAULT_TOL).1
                      (validatedBar bars (screenshotContainerOf inputDets W H)
                        W H BarWhich.bottom DEFAULT_TOL).1 W H
                      (screenshotBaseConf s inputDets) DEFAULT_TOL).score },
                  ([] : List String))).1).documentType = s.documentType := by
            split
            · rfl
            · rfl
          constructor
          · intro hne
            exact absurd (hk.trans hscr) hne
          · rintro ⟨hcov, a', ha', hge⟩
            have haa : a' = a := ((Option.some.injEq _ _).mp ha').symm
            subst haa
            exact absurd ⟨hcov, hge⟩ hcond
    · intro a halt hcov hge
      unfold refineStage6Screenshot
      dsimp only
      rw [halt]
      dsimp only
      rw [if_pos (show _ ∧ (true : Bool) = true from ⟨⟨hcov, hge⟩, rfl⟩)]
      exact ⟨rfl, rfl⟩
  · exact ⟨by decide, by decide⟩

theorem refine_screenshot_switch_iff_witness :
    (refineStage6Screenshot c2scenarioInput.detections 1000 1000
        ⟨DEFAULT_TOL, true, true⟩ [] c2scenarioInput.summary
        c2scenarioInput.detections).1
      = { c2scenarioInput.summary with
          documentType := altTypeOf ⟨"Document", 3/5, ⟨100, 100, 300, 300⟩, none⟩,
          confidence := some (3/5),
          primaryBox := some ⟨100, 100, 300, 300⟩ } :=
  ((refine_screenshot_switch_iff.1 c2scenarioInput.detections []
      c2scenarioInput.detections 1000 1000 c2scenarioInput.summary rfl).2
    ⟨"Document", 3/5, ⟨100, 100, 300, 300⟩, none⟩
    (by decide) (by decide) (by decide)).1

/-! ## Properties of the stable descending sort -/

theorem mem_insertDescBy {α : Type} (key : α → ℚ) (a x : α) :
    ∀ l : List α, x ∈ insertDescBy key a l ↔ x = a ∨ x ∈ l
  | [] => by simp [insertDescBy]
  | b :: l => by
    unfold insertDescBy
    split
    · rw [List.mem_cons, mem_insertDescBy key a x l, List.mem_cons]
      tauto
    · simp only [List.mem_cons]

theorem insertDescBy_pairwise {α : Type} (key : α → ℚ) (a : α) :
    ∀ {l : List α}, l.Pairwise (fun x y => key y ≤ key x) →
      (insertDescBy key a l).Pairwise (fun x y => key y ≤ key x)
  | [], _ => by simp [insertDescBy]
  | b :: l, hp => by
    unfold insertDescBy
    split
    · rename_i hab
      rcases List.pairwise_cons.mp hp with ⟨hb, hl⟩
      refine List.pairwise_cons.mpr ⟨?_, insertDescBy_pairwise key a hl⟩
      intro y hy
      rcases (mem_insertDescBy key a y l).mp hy with rfl | hyl
      · exact le_of_lt hab
      · exact hb y hyl
    · rename_i hab
      refine List.pairwise_cons.mpr ⟨?_, hp⟩
      intro y hy
      rcases List.mem_cons.mp hy with rfl | hyl
      · exact not_lt.mp hab
      · exact le_trans ((List.pairwise_cons.mp hp).1 y hyl) (not_lt.mp hab)

theorem sortDescBy_pairwise {α : Type} (key : α → ℚ) :
    ∀ l : List α, (sortDescBy key l).Pairwise (fun x y => key y ≤ key x)
  | [] => by simp [sortDescBy]
  | a :: l => by
    unfold sortDescBy
    exact insertDescBy_pairwise key a (sortDescBy_pairwise key l)

theorem insertDescBy_of_max {α : Type} (key : α → ℚ) (a : α) :
    ∀ {l : List α}, (∀ x ∈ l, key x ≤ key a) → insertDescBy key a l = a :: l
  | [], _ => rfl
  | b :: l, h => by
    unfold insertDescBy
    rw [if_neg (not_lt.mpr (h b (List.mem_cons_self b l)))]

/-- Sorting an already-sorted list is the identity: the suppression output
(still sorted) is a fixed point of the re-sort on a second run. -/
theorem sortDescBy_eq_self {α : Type} (key : α → ℚ) :
    ∀ {l : List α}, l.Pairwise (fun x y => key y ≤ key x) →
      sortDescBy key l = l
  | [], _ => rfl
  | a :: l, hp => by
    unfold sortDescBy
    rcases List.pairwise_cons.mp hp with ⟨ha, hl⟩
    rw [sortDescBy_eq_self key hl, insertDescBy_of_max key a ha]

/-! ## Properties of the greedy suppression loop -/

/-- "`b` is not suppressed by the kept candidate `a`": different class, or
IoU below the threshold. -/
def nmsRel (τ : ℚ) (a b : Cand) : Prop :=
  b.classId ≠ a.classId ∨ calculateIoU a b < τ

theorem nmsLoop_sublist_aux (τ : ℚ) :
    ∀ (n : ℕ) (l : List Cand), l.length ≤ n → (nmsLoop τ l).Sublist l
  | _, [], _ => by rw [nmsLoop_nil]
  | 0, c :: pool, h => absurd h (by simp)
  | n + 1, c :: pool, h => by
    rw [nmsLoop_cons]
    refine List.Sublist.cons₂ c ?_
    exact (nmsLoop_sublist_aux τ n _
      (le_trans (List.length_filter_le _ _) (Nat.le_of_succ_le_succ h))).trans
      (List.filter_sublist _)

theorem nmsLoop_sublist (τ : ℚ) (l : List Cand) : (nmsLoop τ l).Sublist l :=
  nmsLoop_sublist_aux τ l.length l (le_refl _)

theorem nmsLoop_pairwise_aux (τ : ℚ) :
    ∀ (n : ℕ) (l : List Cand), l.length ≤ n →
      (nmsLoop τ l).Pairwise (nmsRel τ)
  | _, [], _ => by rw [nmsLoop_nil]; exact List.Pairwise.nil
  | 0, c :: pool, h => absurd h (by simp)
  | n + 1, c :: pool, h => by
    rw [nmsLoop_cons]
    refine List.pairwise_cons.mpr ⟨?_, nmsLoop_pairwise_aux τ n _
      (le_trans (List.length_filter_le _ _) (Nat.le_of_succ_le_succ h))⟩
    intro b hb
    have hbf := (nmsLoop_sublist τ _).subset hb
    have hdec := (List.mem_filter.mp hbf).2
    have hd : b.classId ≠ c.classId ∨ calculateIoU c b < τ :=
      of_decide_eq_true hdec
    exact hd

/-- Every two candidates kept by the loop are mutually non-suppressing. -/
theorem nmsLoop_pairwise (τ : ℚ) (l : List Cand) :
    (nmsLoop τ l).Pairwise (nmsRel τ) :=
  nmsLoop_pairwise_aux τ l.length l (le_refl _)

theorem nmsLoop_of_pairwise_aux (τ : ℚ) :
    ∀ (n : ℕ) (l : List Cand), l.length ≤ n → l.Pairwise (nmsRel τ) →
      nmsLoop τ l = l
  | _, [], _, _ => nmsLoop_nil τ
  | 0, c :: pool, h, _ => absurd h (by simp)
  | n + 1, c :: pool, h, hp => by
    rw [nmsLoop_cons]
    have hfilter : pool.filter (fun b =>
        decide (b.classId ≠ c.classId ∨ calculateIoU c b < τ)) = pool := by
      apply List.filter_eq_self.mpr
      intro b hb
      exact decide_eq_true ((List.pairwise_cons.mp hp).1 b hb)
    rw [hfilter, nmsLoop_of_pairwise_aux τ n pool (Nat.le_of_succ_le_succ h)
      (List.pairwise_cons.mp hp).2]

/-- A pool in which no candidate suppresses a later one passes through the
loop unchanged. -/
theorem nmsLoop_of_pairwise (τ : ℚ) (l : List Cand)
    (hp : l.Pairwise (nmsRel τ)) : nmsLoop τ l = l :=
  nmsLoop_of_pairwise_aux τ l.length l (le_refl _) hp

/-- C5: per-class suppression is idempotent — applying `applyNMS` to its own
output with the same threshold returns that output unchanged, for any
candidate list and any threshold. -/
theorem applyNMS_idempotent (τ : ℚ) (S : List Cand) :
    applyNMS τ (applyNMS τ S) = applyNMS τ S := by
  unfold applyNMS
  have hsorted1 := sortDescBy_pairwise Cand.confidence S
  have hsorted2 := List.Pairwise.sublist
    (nmsLoop_sublist τ (sortDescBy Cand.confidence S)) hsorted1
  rw [sortDescBy_eq_self Cand.confidence hsorted2]
  exact nmsLoop_of_pairwise τ _ (nmsLoop_pairwise τ _)

/-! ## Class isolation of the suppression (C9) -/

theorem filter_swap {α : Type} (p q : α → Bool) (l : List α) :
    (l.filter p).filter q = (l.filter q).filter p := by
  induction l with
  | nil => rfl
  | cons a l ih =>
    by_cases hp : p a <;> by_cases hq : q a <;>
      simp [List.filter_cons, hp, hq, ih]

theorem insertDescBy_cons {α : Type} (key : α → ℚ) (a b : α) (l : List α) :
    insertDescBy key a (b :: l)
      = if key a < key b then b :: insertDescBy key a l else a :: b :: l := rfl

/-- Filtering distributes over the stable insertion (for a sorted tail). -/
theorem filter_insertDescBy {α : Type} (key : α → ℚ) (a : α) (p : α → Bool) :
    ∀ {l : List α}, l.Pairwise (fun x y => key y ≤ key x) →
      (insertDescBy key a l).filter p
        = if p a then insertDescBy key a (l.filter p) else l.filter p
  | [], _ => by
    by_cases hpa : p a <;> simp [insertDescBy, List.filter_cons, hpa]
  | b :: l, hp => by
    rcases List.pairwise_cons.mp hp with ⟨hb, hl⟩
    rw [insertDescBy_cons]
    by_cases hab : key a < key b
    · rw [if_pos hab, List.filter_cons]
      by_cases hpb : p b
      · rw [if_pos hpb, filter_insertDescBy key a p hl]
        by_cases hpa : p a
        · rw [if_pos hpa, if_pos hpa, List.filter_cons, if_pos hpb,
            insertDescBy_cons, if_pos hab]
        · rw [if_neg hpa, if_neg hpa, List.filter_cons, if_pos hpb]
      · rw [if_neg hpb, filter_insertDescBy key a p hl]
        by_cases hpa : p a
        · rw [if_pos hpa, if_pos hpa, List.filter_cons, if_neg hpb]
        · rw [if_neg hpa, if_neg hpa, List.filter_cons, if_neg hpb]
    · rw [if_neg hab, List.filter_cons]
      by_cases hpa : p a
      · have hmax : ∀ x ∈ (b :: l).filter p, key x ≤ key a := by
          intro x hx
          have hxm := (List.mem_filter.mp hx).1
          rcases List.mem_cons.mp hxm with rfl | hxl
          · exact not_lt.mp hab
          · exact le_trans (hb x hxl) (not_lt.mp hab)
        rw [if_pos hpa, if_pos hpa, insertDescBy_of_max key a hmax]
      · rw [if_neg hpa, if_neg hpa]

/-- Filtering commutes with the stable sort. -/
theorem filter_sortDescBy {α : Type} (key : α → ℚ) (p : α → Bool) :
    ∀ l : List α, (sortDescBy key l).filter p = sortDescBy key (l.filter p)
  | [] => rfl
  | a :: l => by
    show (insertDescBy key a (sortDescBy key l)).filter p
      = sortDescBy key ((a :: l).filter p)
    rw [filter_insertDescBy key a p (sortDescBy_pairwise key l),
      List.filter_cons]
    by_cases hpa : p a
    · rw [if_pos hpa, if_pos hpa, filter_sortDescBy key p l]
      rfl
    · rw [if_neg hpa, if_neg hpa, filter_sortDescBy key p l]

theorem nmsLoop_filter_class_aux (τ : ℚ) (k : ℕ) :
    ∀ (n : ℕ) (l : List Cand), l.length ≤ n →
      (nmsLoop τ l).filter (fun c => decide (c.classId = k))
        = nmsLoop τ (l.filter (fun c => decide (c.classId = k)))
  | _, [], _ => by
    rw [nmsLoop_nil]
    simp only [List.filter_nil]
    rw [nmsLoop_nil]
  | 0, c :: pool, h => absurd h (by simp)
  | n + 1, c :: pool, h => by
    have hlen : (pool.filter (fun b =>
        decide (b.classId ≠ c.classId ∨ calculateIoU c b < τ))).length ≤ n :=
      le_trans (List.length_filter_le _ _) (Nat.le_of_succ_le_succ h)
    rw [nmsLoop_cons, List.filter_cons, List.filter_cons]
    by_cases hck : c.classId = k
    · rw [if_pos (decide_eq_true hck), if_pos (decide_eq_true hck),
        nmsLoop_cons, nmsLoop_filter_class_aux τ k n _ hlen,
        filter_swap]
    · rw [if_neg (by simpa using hck), if_neg (by simpa using hck),
        nmsLoop_filter_class_aux τ k n _ hlen, filter_swap]
      have hself : (pool.filter (fun c => decide (c.classId = k))).filter
          (fun b => decide (b.classId ≠ c.classId ∨ calculateIoU c b < τ))
          = pool.filter (fun c => decide (c.classId = k)) := by
        apply List.filter_eq_self.mpr
        intro b hb
        have hbk : b.classId = k :=
          of_decide_eq_true (List.mem_filter.mp hb).2
        exact decide_eq_true (Or.inl (fun hbc => hck (hbc ▸ hbk)))
      rw [hself]

theorem nmsLoop_filter_class (τ : ℚ) (k : ℕ) (l : List Cand) :
    (nmsLoop τ l).filter (fun c => decide (c.classId = k))
      = nmsLoop τ (l.filter (fun c => decide (c.classId = k))) :=
  nmsLoop_filter_class_aux τ k l.length l (le_refl _)

/-- C9: candidates of different classes never suppress one another — the
survivors of any class `k` are exactly what the suppression computes on the
class-`k` candidates alone, whatever the other classes' candidates are and
however much they overlap. -/
theorem applyNMS_class_isolation (τ : ℚ) (k : ℕ) (S : List Cand) :
    (applyNMS τ S).filter (fun c => decide (c.classId = k))
      = applyNMS τ (S.filter (fun c => decide (c.classId = k))) := by
  unfold applyNMS
  rw [nmsLoop_filter_class τ k (sortDescBy Cand.confidence S),
    filter_sortDescBy]

end RestartVision
